import Mathlib

/-!
Verification of the pyCityParkingPermit client library.

This file shallowly embeds the parts of the library relevant to the spec
claims: the JSON data model (Python values after `json.loads`), the
date/time parsing and UTC normalization from `models.py`, the entity
parsers (`Zone.from_mapping`, `Account.from_mapping`,
`Reservation.from_mapping`), the permit extractor and default-refresh
logic from `api.py`, the authenticated request pipeline from `auth.py`,
and a small-step cooperative-scheduling model of the login lock.
-/

namespace ParkingPermit

/-- Dynamic JSON value, as produced by Python `json.loads`.  JSON `null`
maps to Python `None`.  Numbers are modelled as integers (the upstream API
exchanges whole numbers only; floating point is outside the model). -/
inductive Json where
  | null : Json
  | bool (b : Bool) : Json
  | num (n : Int) : Json
  | str (s : String) : Json
  | arr (items : List Json) : Json
  | obj (fields : List (String × Json)) : Json
  deriving BEq, Repr, Inhabited

namespace Json

/-- Key lookup in an object, `none` when the key is absent or the value is
not an object.  Models Python `mapping[key]` presence (duplicate keys do
not occur in values decoded from JSON text). -/
def get? : Json → String → Option Json
  | .obj fields, k => fields.lookup k
  | _, _ => none

/-- Python `mapping.get(key)`: the value, or `None` when absent.  An
absent key and a key mapped to JSON `null` are indistinguishable, exactly
as in Python after `json.loads`. -/
def getPy (j : Json) (k : String) : Json :=
  (j.get? k).getD Json.null

/-- Python `key in mapping`. -/
def hasKey (j : Json) (k : String) : Bool :=
  match j with
  | .obj fields => fields.any (fun p => p.1 == k)
  | _ => false

/-- Python truthiness of a decoded JSON value. -/
def truthy : Json → Bool
  | .null => false
  | .bool b => b
  | .num n => n != 0
  | .str s => s != ""
  | .arr items => !items.isEmpty
  | .obj fields => !fields.isEmpty

/-- Whether the value is an object (Python `isinstance(x, Mapping)`). -/
def isObj : Json → Bool
  | .obj _ => true
  | _ => false

/-- Whether the value is an array (Python `isinstance(x, list)`). -/
def isArr : Json → Bool
  | .arr _ => true
  | _ => false

end Json

/-- Characters stripped by Python `int(str)` before parsing. -/
def isPySpace (c : Char) : Bool :=
  c == ' ' || c == '\t' || c == '\n' || c == '\r' || c == '\x0b' || c == '\x0c'

/-- Strip leading and trailing whitespace, as Python `int(str)` does. -/
def stripPySpace (cs : List Char) : List Char :=
  ((cs.dropWhile isPySpace).reverse.dropWhile isPySpace).reverse

/-- Accumulating digit parser for Python integer literals: after an initial
digit, digits may be separated by single underscores. -/
def pyDigitsAux (acc : Nat) : List Char → Option Nat
  | [] => some acc
  | c :: cs =>
    if c.isDigit then pyDigitsAux (acc * 10 + (c.toNat - 48)) cs
    else if c == '_' then
      match cs with
      | d :: cs' =>
        if d.isDigit then pyDigitsAux (acc * 10 + (d.toNat - 48)) cs'
        else none
      | [] => none
    else none

/-- Digit-sequence value for Python `int(str)` (at least one digit,
single underscores allowed between digits). -/
def pyDigits : List Char → Option Nat
  | [] => none
  | c :: cs => if c.isDigit then pyDigitsAux (c.toNat - 48) cs else none

/-- Python `int(s)` on a string: optional surrounding whitespace, optional
sign, decimal digits (ASCII subset of the Python grammar). -/
def pyStrToInt (s : String) : Option Int :=
  match stripPySpace s.data with
  | '+' :: rest => (pyDigits rest).map (fun n => (n : Int))
  | '-' :: rest => (pyDigits rest).map (fun n => -(n : Int))
  | cs => (pyDigits cs).map (fun n => (n : Int))

/-- Python `int(value)` on a decoded JSON value: integers pass through,
booleans count as 0/1 (`bool` is an `int` subclass), strings are parsed,
everything else raises `TypeError`/`ValueError` (here `none`). -/
def pyInt : Json → Option Int
  | .num n => some n
  | .bool b => some (if b then 1 else 0)
  | .str s => pyStrToInt s
  | _ => none

/-- The four failure kinds of the library
(`AuthError`, `ParkingConnectionError`, `RateLimitError`, `ParseError`). -/
inductive PermitError where
  | authError (msg : String) : PermitError
  | connectionError (msg : String) : PermitError
  | rateLimitError (retryAfter : Option Int) : PermitError
  | parseError (msg : String) : PermitError
  deriving DecidableEq, Repr

/-- Python `datetime` value: civil fields plus an optional fixed UTC
offset in whole minutes (`offsetMinutes = none` models a naive datetime).
Offsets with a seconds component do not occur in this API. -/
structure PDateTime where
  year : Int
  month : Nat
  day : Nat
  hour : Nat
  minute : Nat
  second : Nat
  microsecond : Nat
  offsetMinutes : Option Int
  deriving DecidableEq, Repr

/-- Gregorian leap-year test (years are validated positive by parsing). -/
def isLeapYear (y : Int) : Bool :=
  y % 4 == 0 && (y % 100 != 0 || y % 400 == 0)

/-- Number of days in a month of the proleptic Gregorian calendar. -/
def daysInMonth (y : Int) (m : Nat) : Nat :=
  if m = 2 then (if isLeapYear y then 29 else 28)
  else if m = 4 ∨ m = 6 ∨ m = 9 ∨ m = 11 then 30
  else 31

/-- Days since 1970-01-01 of a civil date (Gregorian calendar). -/
def daysFromCivil (y : Int) (m d : Nat) : Int :=
  let y' : Int := if m ≤ 2 then y - 1 else y
  let era : Int := (if 0 ≤ y' then y' else y' - 399) / 400
  let yoe : Int := y' - era * 400
  let mp : Int := ((m : Int) + 9) % 12
  let doy : Int := (153 * mp + 2) / 5 + (d : Int) - 1
  let doe : Int := yoe * 365 + yoe / 4 - yoe / 100 + doy
  era * 146097 + doe - 719468

/-- Civil date (year, month, day) of a day count since 1970-01-01. -/
def civilFromDays (z0 : Int) : Int × Nat × Nat :=
  let z := z0 + 719468
  let era : Int := (if 0 ≤ z then z else z - 146096) / 146097
  let doe : Int := z - era * 146097
  let yoe : Int := (doe - doe / 1460 + doe / 36524 - doe / 146096) / 365
  let y : Int := yoe + era * 400
  let doy : Int := doe - (365 * yoe + yoe / 4 - yoe / 100)
  let mp : Int := (5 * doy + 2) / 153
  let d : Int := doy - (153 * mp + 2) / 5 + 1
  let m : Int := if mp < 10 then mp + 3 else mp - 9
  (if m ≤ 2 then y + 1 else y, m.toNat, d.toNat)

/-- Seconds since the epoch of the instant denoted by a datetime (a naive
value is taken at UTC; in the embedded code this is only applied to aware
values or after an explicit naive-to-UTC step, as at the call sites). -/
def PDateTime.toEpochSeconds (dt : PDateTime) : Int :=
  daysFromCivil dt.year dt.month dt.day * 86400
    + (dt.hour : Int) * 3600 + (dt.minute : Int) * 60 + (dt.second : Int)
    - (dt.offsetMinutes.getD 0) * 60

/-- Microseconds since the epoch; Python compares aware datetimes by this
instant value. -/
def PDateTime.instantMicros (dt : PDateTime) : Int :=
  dt.toEpochSeconds * 1000000 + (dt.microsecond : Int)

/-- Python `dt.astimezone(UTC)` for an aware datetime: same instant
re-expressed in UTC civil fields. -/
def PDateTime.toUTC (dt : PDateTime) : PDateTime :=
  let t := dt.toEpochSeconds
  let days := t.ediv 86400
  let sod := (t.emod 86400).toNat
  let c := civilFromDays days
  { year := c.1, month := c.2.1, day := c.2.2,
    hour := sod / 3600, minute := sod / 60 % 60, second := sod % 60,
    microsecond := dt.microsecond, offsetMinutes := some 0 }

/-- The (year, month, day) of a datetime, Python `dt.date()`. -/
def PDateTime.dateTriple (dt : PDateTime) : Int × Nat × Nat :=
  (dt.year, dt.month, dt.day)

/-- Civil date of the instant `nowEpoch` in a fixed offset: models
`datetime.now(tz).date()` for `tz` at `offMinutes` from UTC. -/
def dateInOffset (nowEpoch : Int) (offMinutes : Int) : Int × Nat × Nat :=
  civilFromDays ((nowEpoch + offMinutes * 60).ediv 86400)

/-- Left-pad a number with zeros to the given width. -/
def padNum (width n : Nat) : String :=
  let s := toString n
  if s.length < width then String.mk (List.replicate (width - s.length) '0') ++ s
  else s

/-- Python `dt.isoformat()` (microseconds shown only when nonzero; the
offset, when present, as a signed HH:MM suffix). -/
def PDateTime.isoformat (dt : PDateTime) : String :=
  let date := padNum 4 dt.year.toNat ++ "-" ++ padNum 2 dt.month ++ "-" ++ padNum 2 dt.day
  let time := padNum 2 dt.hour ++ ":" ++ padNum 2 dt.minute ++ ":" ++ padNum 2 dt.second
  let frac := if dt.microsecond = 0 then "" else "." ++ padNum 6 dt.microsecond
  let off :=
    match dt.offsetMinutes with
    | none => ""
    | some o =>
      let sign := if o < 0 then "-" else "+"
      let a := o.natAbs
      sign ++ padNum 2 (a / 60) ++ ":" ++ padNum 2 (a % 60)
  date ++ "T" ++ time ++ frac ++ off

/-- Consume exactly `n` decimal digits, returning their value. -/
def takeDigitsAux : Nat → Nat → List Char → Option (Nat × List Char)
  | 0, acc, cs => some (acc, cs)
  | n + 1, acc, c :: cs =>
    if c.isDigit then takeDigitsAux n (acc * 10 + (c.toNat - 48)) cs else none
  | _ + 1, _, [] => none

/-- Consume exactly `n` decimal digits from the front of the input. -/
def takeDigitsN (n : Nat) (cs : List Char) : Option (Nat × List Char) :=
  takeDigitsAux n 0 cs

/-- Consume one expected character. -/
def expectChar (c : Char) : List Char → Option (List Char)
  | d :: cs => if d = c then some cs else none
  | [] => none

/-- Value of a digit list, most significant first. -/
def digitListVal (ds : List Char) : Nat :=
  ds.foldl (fun a c => a * 10 + (c.toNat - 48)) 0

/-- Fractional seconds after the decimal separator: one or more digits,
truncated to microsecond precision (extra digits discarded). -/
def parseFracDigits (cs : List Char) : Option (Nat × List Char) :=
  let ds := cs.takeWhile Char.isDigit
  let rest := cs.dropWhile Char.isDigit
  if ds.isEmpty then none
  else some (digitListVal (ds.take 6 ++ List.replicate (6 - ds.length) '0'), rest)

/-- UTC-offset suffix: empty (naive) or a signed HH:MM offset consuming
the rest of the input. -/
def parseOffsetTail (cs : List Char) : Option (Option Int) :=
  match cs with
  | [] => some none
  | c :: rest =>
    if c = '+' ∨ c = '-' then do
      let (oh, r1) ← takeDigitsN 2 rest
      let r2 ← expectChar ':' r1
      let (om, r3) ← takeDigitsN 2 r2
      guard r3.isEmpty
      guard (oh ≤ 23 ∧ om ≤ 59)
      let v : Int := (oh : Int) * 60 + (om : Int)
      some (some (if c = '-' then -v else v))
    else none

/-- Seconds part of a time: SS, optional fraction, optional offset. -/
def parseSecondTail (cs : List Char) : Option (Nat × Nat × Option Int) := do
  let (sec, r1) ← takeDigitsN 2 cs
  guard (sec ≤ 59)
  match r1 with
  | c :: r2 =>
    if c = '.' ∨ c = ',' then do
      let (micro, r3) ← parseFracDigits r2
      let off ← parseOffsetTail r3
      some (sec, micro, off)
    else do
      let off ← parseOffsetTail r1
      some (sec, 0, off)
  | [] => some (sec, 0, none)

/-- Time part after the hour: optional minutes, seconds, offset. -/
def parseMinuteTail (cs : List Char) : Option (Nat × Nat × Nat × Option Int) := do
  match cs with
  | ':' :: r1 => do
    let (mi, r2) ← takeDigitsN 2 r1
    guard (mi ≤ 59)
    match r2 with
    | ':' :: r3 => do
      let (sec, micro, off) ← parseSecondTail r3
      some (mi, sec, micro, off)
    | _ => do
      let off ← parseOffsetTail r2
      some (mi, 0, 0, off)
  | _ => do
    let off ← parseOffsetTail cs
    some (0, 0, 0, off)

/-- Python `datetime.fromisoformat` on the extended ISO-8601 forms used by
this API: `YYYY-MM-DD`, optionally followed by a separator (`T`, `t` or a
space), `HH[:MM[:SS[.ffffff]]]`, and an optional `+HH:MM`/`-HH:MM`
offset.  Field ranges are validated as Python does. -/
def fromIsoFormat (s : String) : Option PDateTime := do
  let cs := s.data
  let (y, c1) ← takeDigitsN 4 cs
  let c2 ← expectChar '-' c1
  let (mo, c3) ← takeDigitsN 2 c2
  let c4 ← expectChar '-' c3
  let (d, c5) ← takeDigitsN 2 c4
  guard (1 ≤ y)
  guard (1 ≤ mo ∧ mo ≤ 12)
  guard (1 ≤ d ∧ d ≤ daysInMonth (y : Int) mo)
  match c5 with
  | [] => some ⟨(y : Int), mo, d, 0, 0, 0, 0, none⟩
  | sep :: c6 => do
    guard (sep = 'T' ∨ sep = 't' ∨ sep = ' ')
    let (h, c7) ← takeDigitsN 2 c6
    guard (h ≤ 23)
    let (mi, sec, micro, off) ← parseMinuteTail c7
    some ⟨(y : Int), mo, d, h, mi, sec, micro, off⟩

/-- Python `value.replace("Z", "+00:00")` on the character list: every
occurrence of `Z` is replaced. -/
def replaceZChars : List Char → List Char
  | [] => []
  | c :: cs => (if c = 'Z' then "+00:00".data else [c]) ++ replaceZChars cs

/-- Python `value.replace("Z", "+00:00")`. -/
def replaceZ (s : String) : String :=
  String.mk (replaceZChars s.data)

/-- models.py `_parse_dt_value`: require a string, substitute `Z`,
parse as ISO 8601, and assume UTC when no offset is present. -/
def parse_dt_value (value : Json) (field : String) : Except PermitError PDateTime :=
  match value with
  | .str s =>
    match fromIsoFormat (replaceZ s) with
    | none => .error (.parseError ("Invalid datetime for " ++ field))
    | some dt =>
      if dt.offsetMinutes = none then .ok { dt with offsetMinutes := some 0 }
      else .ok dt
  | _ => .error (.parseError ("Invalid datetime for " ++ field))

/-- models.py `_normalize_dt`: convert to UTC and truncate to whole
seconds (applied to aware values). -/
def normalize_dt (dt : PDateTime) : PDateTime :=
  { dt.toUTC with microsecond := 0 }

/-- models.py `_dt_to_client`: normalized ISO 8601 serialization. -/
def dt_to_client (dt : PDateTime) : String :=
  (normalize_dt dt).isoformat

/-- models.py `_parse_dt`: parse and normalize. -/
def parse_dt (value : Json) (field : String) : Except PermitError PDateTime :=
  (parse_dt_value value field).map normalize_dt

/-- api.py `_normalize_date`: make naive values UTC, then convert to UTC
and truncate to whole seconds. -/
def normalize_date (value : PDateTime) : PDateTime :=
  let dt := if value.offsetMinutes = none then { value with offsetMinutes := some 0 } else value
  { dt.toUTC with microsecond := 0 }

example : fromIsoFormat "2025-12-23T00:47:00" =
    some ⟨2025, 12, 23, 0, 47, 0, 0, none⟩ := rfl

example : fromIsoFormat "2025-12-23T23:59:00+01:30" =
    some ⟨2025, 12, 23, 23, 59, 0, 0, some 90⟩ := rfl

example : fromIsoFormat "9999-12-31T23:59:59.9999999" =
    some ⟨9999, 12, 31, 23, 59, 59, 999999, none⟩ := rfl

example : parse_dt_value (.str "2025-12-23T10:00:00Z") "f" =
    .ok ⟨2025, 12, 23, 10, 0, 0, 0, some 0⟩ := rfl

example : dt_to_client ⟨2025, 12, 23, 23, 59, 0, 0, some 90⟩ =
    "2025-12-23T22:29:00+00:00" := rfl

/-- models.py `_parse_int`: Python `int(value)` or a field-qualified
parse failure. -/
def parse_int (value : Json) (field : String) : Except PermitError Int :=
  match pyInt value with
  | some n => .ok n
  | none => .error (.parseError ("Invalid int for " ++ field))

/-- models.py `_parse_str`: require a string. -/
def parse_str (value : Json) (field : String) : Except PermitError String :=
  match value with
  | .str s => .ok s
  | _ => .error (.parseError ("Invalid str for " ++ field))

/-- models.py `_parse_optional_str`: `None` passes through, wrong type
fails. -/
def parse_optional_str (value : Json) (field : String) : Except PermitError (Option String) :=
  match value with
  | .null => .ok none
  | .str s => .ok (some s)
  | _ => .error (.parseError ("Invalid str for " ++ field))

/-- models.py `Zone`: paid parking block for the current day. -/
structure Zone where
  id : String
  start_time : String
  end_time : String
  deriving DecidableEq, Repr

/-- The `paid_blocks` accumulation loop of `Zone.from_mapping`: skip
entries flagged free, parse start/end, keep entries whose start date (in
the entry's own offset) equals today in that offset. -/
def collectPaidBlocks (nowEpoch : Int) :
    List Json → Except PermitError (List (PDateTime × PDateTime))
  | [] => .ok []
  | item :: rest =>
    match item with
    | .obj _ =>
      match item.getPy "IsFree" with
      | .bool true => collectPaidBlocks nowEpoch rest
      | _ => do
        let start_raw ← parse_dt_value (item.getPy "ValidFrom") "block.ValidFrom"
        let end_raw ← parse_dt_value (item.getPy "ValidUntil") "block.ValidUntil"
        let today := dateInOffset nowEpoch (start_raw.offsetMinutes.getD 0)
        if start_raw.dateTriple ≠ today then
          collectPaidBlocks nowEpoch rest
        else do
          let tail ← collectPaidBlocks nowEpoch rest
          .ok ((start_raw, end_raw) :: tail)
    | _ => .error (.parseError "Expected permit.BlockTimes item object")

/-- Python `min(paid_blocks, key=...)` on start instants: the first
element attaining the minimal start. -/
def minByStart (x : PDateTime × PDateTime) (xs : List (PDateTime × PDateTime)) :
    PDateTime × PDateTime :=
  xs.foldl (fun acc y => if y.1.instantMicros < acc.1.instantMicros then y else acc) x

/-- models.py `Zone.from_mapping`, with the current instant passed
explicitly (the source reads the wall clock). -/
def Zone.from_mapping (nowEpoch : Int) (data : Json) : Except PermitError (Option Zone) := do
  let zone_code ← parse_str (data.getPy "ZoneCode") "permit.ZoneCode"
  match data.getPy "BlockTimes" with
  | .arr block_times => do
    let paid ← collectPaidBlocks nowEpoch block_times
    match paid with
    | [] => .ok none
    | b :: bs =>
      let m := minByStart b bs
      .ok (some ⟨zone_code, dt_to_client m.1, dt_to_client m.2⟩)
  | _ => .error (.parseError "Expected permit.BlockTimes list")

/-- models.py `Account`. -/
structure Account where
  id : Int
  remaining_time : Int
  active_reservation_count : Nat
  deriving DecidableEq, Repr

/-- models.py `Account.from_mapping`. -/
def Account.from_mapping (data : Json) : Except PermitError Account := do
  let count ←
    match data.getPy "ActiveReservations" with
    | .null => Except.ok 0
    | .arr items => Except.ok items.length
    | _ => Except.error (.parseError "Expected permit_media.ActiveReservations list")
  let code ← parse_int (data.getPy "Code") "permit_media.Code"
  let balance ← parse_int (data.getPy "Balance") "permit_media.Balance"
  .ok ⟨code, balance, count⟩

/-- models.py `Reservation`. -/
structure Reservation where
  id : Int
  license_plate : String
  name : String
  start_time : String
  end_time : String
  deriving DecidableEq, Repr

/-- models.py `Reservation.from_mapping`. -/
def Reservation.from_mapping (data : Json) : Except PermitError Reservation := do
  match data.getPy "LicensePlate" with
  | .obj lpFields => do
    let lp := Json.obj lpFields
    let rid ← parse_int (data.getPy "ReservationID") "reservation.ReservationID"
    let plate ← parse_str (lp.getPy "Value") "reservation.LicensePlate.Value"
    let nm ← parse_str (lp.getPy "DisplayValue") "reservation.LicensePlate.DisplayValue"
    let vf ← parse_dt (data.getPy "ValidFrom") "reservation.ValidFrom"
    let vu ← parse_dt (data.getPy "ValidUntil") "reservation.ValidUntil"
    .ok ⟨rid, plate, nm, dt_to_client vf, dt_to_client vu⟩
  | _ => .error (.parseError "Expected reservation.LicensePlate object")

/-- api.py `_ensure_mapping`. -/
def ensure_mapping (data : Json) (label : String) : Except PermitError Json :=
  match data with
  | .obj _ => .ok data
  | _ => .error (.parseError ("Expected " ++ label ++ " object"))

/-- api.py `_ensure_list`. -/
def ensure_list (data : Json) (label : String) : Except PermitError (List Json) :=
  match data with
  | .arr items => .ok items
  | _ => .error (.parseError ("Expected " ++ label ++ " list"))

/-- api.py `_extract_permit_media`, lines 274-282: choose the permit
object, from the singular `Permit` key when present, else from the first
element of a non-empty `Permits` array. -/
def choose_permit (root : Json) : Except PermitError Json :=
  if root.hasKey "Permit" then
    ensure_mapping (root.getPy "Permit") "permit"
  else if root.hasKey "Permits" then do
    let permits ← ensure_list (root.getPy "Permits") "permits"
    match permits with
    | [] => Except.error (.parseError "Expected permit list to have items")
    | p :: _ => ensure_mapping p "permit"
  else
    Except.error (.parseError "Expected permit data in response")

/-- api.py `_extract_permit_media`, lines 284-287: the first element of
the permit's non-empty `PermitMedias` array. -/
def extract_media_from_permit (permit : Json) : Except PermitError Json := do
  let permit_medias ← ensure_list (permit.getPy "PermitMedias") "permit.PermitMedias"
  match permit_medias with
  | [] => Except.error (.parseError "Expected permit media list to have items")
  | pm :: _ => ensure_mapping pm "permit_media"

/-- api.py `_extract_permit_media`: locate the permit object (singular
`Permit` key, else first element of a non-empty `Permits` array) and its
first permit-media entry. -/
def extract_permit_media (data : Json) : Except PermitError (Json × Json) := do
  let root ← ensure_mapping data "response"
  let permit ← choose_permit root
  let permit_media ← extract_media_from_permit permit
  .ok (permit, permit_media)

/-- The mutable default permit-media identifiers of
`CityParkingPermitAPI` (`_default_type_id`, `_default_code`). -/
structure ApiState where
  defaultTypeId : Option Int
  defaultCode : Option String
  deriving DecidableEq, Repr

/-- api.py `_update_defaults`: adopt `int(permit_media["TypeID"])` and the
string `permit_media["Code"]`; missing keys or wrong types are parse
failures. -/
def update_defaults (_st : ApiState) (permit_media : Json) : Except PermitError ApiState := do
  let tid ←
    match permit_media.get? "TypeID" with
    | none => Except.error (.parseError "Invalid permit media TypeID")
    | some v =>
      match pyInt v with
      | none => Except.error (.parseError "Invalid permit media TypeID")
      | some n => Except.ok n
  let code ←
    match permit_media.get? "Code" with
    | some (.str s) => Except.ok s
    | some _ => Except.error (.parseError "Invalid permit media Code")
    | none => Except.error (.parseError "Invalid permit media Code")
  .ok ⟨some tid, some code⟩

/-- api.py `_update_defaults_from_response`: strict refresh, requires
permit data in the response. -/
def update_defaults_from_response (st : ApiState) (data : Json) : Except PermitError ApiState := do
  let (_permit, permit_media) ← extract_permit_media data
  update_defaults st permit_media

/-- api.py `_maybe_update_defaults_from_response`: refresh only when the
decoded response is an object carrying a `Permit`/`Permits` key. -/
def maybe_update_defaults_from_response (st : ApiState) (data : Json) :
    Except PermitError ApiState :=
  match data with
  | .null => .ok st
  | .obj _ =>
    if data.hasKey "Permit" || data.hasKey "Permits" then
      update_defaults_from_response st data
    else .ok st
  | _ => .ok st

/-- The post-decode step of api.py `async_end_reservation` (line 116):
the decoded body is passed to the strict default refresh. -/
def end_reservation_finish (st : ApiState) (data : Json) : Except PermitError ApiState :=
  update_defaults_from_response st data

/-- The post-decode step of api.py `_upsert_favorite` and
`async_delete_favorite`: tolerant default refresh. -/
def favorite_mutation_finish (st : ApiState) (data : Json) : Except PermitError ApiState :=
  maybe_update_defaults_from_response st data

/-- The `_matches` predicate inside api.py `_pick_reservation_from_permit`. -/
def reservationMatches (license_plate_value : String)
    (date_from date_until : Option PDateTime) (r : Reservation) : Bool :=
  r.license_plate == license_plate_value
    && (match date_from with
        | none => true
        | some d => r.start_time == (normalize_date d).isoformat)
    && (match date_until with
        | none => true
        | some d => r.end_time == (normalize_date d).isoformat)

/-- api.py `_pick_reservation_from_permit`: parse the echoed
active-reservation list, select the entry matching plate and normalized
dates, falling back to the first entry; an empty list is a parse
failure. -/
def pick_reservation_from_permit (data : Json) (license_plate_value : String)
    (date_from date_until : Option PDateTime) : Except PermitError Reservation := do
  let (_permit, permit_media) ← extract_permit_media data
  let raw := permit_media.getPy "ActiveReservations"
  let items ← ensure_list (if raw.truthy then raw else .arr []) "reservations"
  let reservations ← items.mapM (fun item => do
    let m ← ensure_mapping item "reservation"
    Reservation.from_mapping m)
  match reservations with
  | [] => Except.error (.parseError "No active reservations in response")
  | first :: _ =>
    match reservations.find? (reservationMatches license_plate_value date_from date_until) with
    | some r => .ok r
    | none => .ok first

mutual

/-- Python `repr` of a decoded JSON value (scalars exact; containers in
Python display form). -/
def pyRepr : Json → String
  | .null => "None"
  | .bool true => "True"
  | .bool false => "False"
  | .num n => toString n
  | .str s => "\x27" ++ s ++ "\x27"
  | .arr items => "[" ++ String.intercalate ", " (pyReprList items) ++ "]"
  | .obj fields => "\x7b" ++ String.intercalate ", " (pyReprFields fields) ++ "\x7d"

/-- Python `repr` of each array element. -/
def pyReprList : List Json → List String
  | [] => []
  | x :: xs => pyRepr x :: pyReprList xs

/-- Python `repr` of each key-value pair of an object. -/
def pyReprFields : List (String × Json) → List String
  | [] => []
  | (k, v) :: xs => ("\x27" ++ k ++ "\x27: " ++ pyRepr v) :: pyReprFields xs

end

/-- Python `str` of a decoded JSON value. -/
def pyStr : Json → String
  | .str s => s
  | v => pyRepr v

/-- The mutable session fields of auth.py `Auth`
(`_token`, `_authenticated`, `_permit_media_type_id`). -/
structure SessionState where
  token : Option String
  authenticated : Bool
  permitMediaTypeId : Option Int
  deriving DecidableEq, Repr

/-- auth.py `Auth._invalidate_session`: clear the flag and the token
together. -/
def invalidate_session (st : SessionState) : SessionState :=
  { st with authenticated := false, token := none }

/-- Python `value == 2` for a decoded JSON value. -/
def jsonEqNum2 (v : Json) : Bool :=
  match v with
  | .num n => n == 2
  | _ => false

/-- auth.py `Auth._login`, lines 165-176: the handling of the decoded
login response body.  A non-object body, a reported `LoginStatus` of 2,
or a falsy `Token` is an authentication failure; on success the
stringified token is stored and the flag set, in the same step. -/
def login_from_data (st : SessionState) (data : Json) : Except PermitError SessionState :=
  match data with
  | .obj _ =>
    if jsonEqNum2 (data.getPy "LoginStatus") then
      let message :=
        match data.get? "ErrorMessage" with
        | none => "Unknown authentication error"
        | some v => pyStr v
      .error (.authError ("Authentication failed: " ++ message))
    else
      let token := data.getPy "Token"
      if token.truthy then
        .ok { st with token := some (pyStr token), authenticated := true }
      else
        .error (.authError "Authentication failed")
  | _ => .error (.authError "Authentication failed")

/-- An HTTP response as seen by the request pipeline: status and
headers (the body is consumed later by the decoder). -/
structure HttpResponse where
  status : Nat
  headers : List (String × String)
  deriving DecidableEq, Repr

/-- Outcome of one transport call: a response, or a transport-level
timeout/connection failure. -/
inductive TransportEvent where
  | response (r : HttpResponse) : TransportEvent
  | netError : TransportEvent
  deriving DecidableEq, Repr

/-- ASCII lowercase code point of a character. -/
def lowerCode (c : Char) : Nat :=
  if 65 ≤ c.toNat ∧ c.toNat ≤ 90 then c.toNat + 32 else c.toNat

/-- ASCII case-insensitive character-list equality. -/
def listCaseEq : List Char → List Char → Bool
  | [], [] => true
  | a :: as, b :: bs => lowerCode a == lowerCode b && listCaseEq as bs
  | _, _ => false

/-- ASCII case-insensitive string equality (HTTP header names are
ASCII). -/
def strCaseEq (a b : String) : Bool :=
  listCaseEq a.data b.data

/-- Case-insensitive header lookup (aiohttp headers are a
case-insensitive multidict). -/
def headerGet (headers : List (String × String)) (key : String) : Option String :=
  (headers.find? (fun p => strCaseEq p.1 key)).map Prod.snd

/-- auth.py `_parse_retry_after`: the integer value of the `Retry-After`
header, or `none` when absent or unparsable. -/
def parse_retry_after (headers : List (String × String)) : Option Int :=
  match headerGet headers "Retry-After" with
  | none => none
  | some v => pyStrToInt v

/-- auth.py `_merge_headers`/`_build_authorization_header`, reduced to
the claim-relevant content: the token carried in the Authorization
header (`none` for unauthenticated calls); fails when auth is required
but no token is present. -/
def build_headers (authRequired : Bool) (st : SessionState) :
    Except PermitError (Option String) :=
  if authRequired then
    match st.token with
    | none => .error (.authError "Authentication token missing")
    | some t => .ok (some t)
  else .ok none

/-- auth.py `Auth._ensure_logged_in`, sequential view (the login lock is
modelled separately): no-op when authenticated, otherwise run the login
(`loginFn` abstracts `Auth._login`, whose outcome depends on the
network; on failure the session fields are unchanged, as in the
source). -/
def ensure_logged_in (loginFn : SessionState → Except PermitError SessionState)
    (st : SessionState) : Except PermitError SessionState :=
  if st.authenticated then .ok st else loginFn st

/-- Observable trace of one `Auth.request` call: its result, the final
session state, the Authorization token sent on each issued transport
request (in order), and how many logins were performed. -/
structure ReqTrace where
  result : Except PermitError HttpResponse
  finalState : SessionState
  sentAuth : List (Option String)
  logins : Nat
  deriving Repr

/-- auth.py `Auth.request`: ensure login, build headers, issue the call;
429 raises rate-limiting, 401/403 on an authenticated call invalidates
the session and retries once after re-login, a second 401/403 raises
`AuthError`.  `transport` gives the outcome of the n-th issued attempt.
The `while` loop of the source re-enters only from the `attempt == 1`
branch, so it is unrolled to its two possible iterations. -/
def Auth.request (loginFn : SessionState → Except PermitError SessionState)
    (transport : Nat → TransportEvent) (authRequired : Bool) (st0 : SessionState) : ReqTrace :=
  let l0 : Nat := if authRequired ∧ ¬st0.authenticated then 1 else 0
  match (if authRequired then ensure_logged_in loginFn st0 else .ok st0) with
  | .error e => ⟨.error e, st0, [], l0⟩
  | .ok st1 =>
    match build_headers authRequired st1 with
    | .error e => ⟨.error e, st1, [], l0⟩
    | .ok hdr1 =>
      match transport 1 with
      | .netError => ⟨.error (.connectionError "Request failed"), st1, [hdr1], l0⟩
      | .response r1 =>
        if r1.status = 429 then
          ⟨.error (.rateLimitError (parse_retry_after r1.headers)), st1, [hdr1], l0⟩
        else if authRequired ∧ (r1.status = 401 ∨ r1.status = 403) then
          let st2 := invalidate_session st1
          match ensure_logged_in loginFn st2 with
          | .error e => ⟨.error e, st2, [hdr1], l0 + 1⟩
          | .ok st3 =>
            match build_headers authRequired st3 with
            | .error e => ⟨.error e, st3, [hdr1], l0 + 1⟩
            | .ok hdr2 =>
              match transport 2 with
              | .netError =>
                ⟨.error (.connectionError "Request failed"), st3, [hdr1, hdr2], l0 + 1⟩
              | .response r2 =>
                if r2.status = 429 then
                  ⟨.error (.rateLimitError (parse_retry_after r2.headers)), st3,
                    [hdr1, hdr2], l0 + 1⟩
                else if r2.status = 401 ∨ r2.status = 403 then
                  ⟨.error (.authError "Authentication failed"), invalidate_session st3,
                    [hdr1, hdr2], l0 + 1⟩
                else ⟨.ok r2, st3, [hdr1, hdr2], l0 + 1⟩
        else ⟨.ok r1, st1, [hdr1], l0⟩

/-- Program counter of one task running auth.py `_ensure_logged_in`
under cooperative scheduling: the unguarded authenticated check, waiting
on `_login_lock`, the guarded re-check while holding the lock, the
`_login` network call, and releasing the lock. -/
inductive TaskPc where
  | start : TaskPc
  | acquiring : TaskPc
  | locked : TaskPc
  | loggingIn : TaskPc
  | releasing : TaskPc
  | done : TaskPc
  deriving DecidableEq, Repr

/-- Shared state of the login concurrency model: the authenticated flag,
the holder of `_login_lock`, the number of login network calls issued so
far, and each task's program counter. -/
structure SimState where
  auth : Bool
  lock : Option Nat
  logins : Nat
  pcs : List TaskPc
  deriving DecidableEq, Repr

/-- One cooperative step of task `i` in `_ensure_logged_in`:
`outcome k` tells whether the k-th login network call succeeds (a failed
login propagates its error, releasing the lock, without authenticating). -/
def taskStep (outcome : Nat → Bool) (st : SimState) (i : Nat) : Option SimState :=
  match st.pcs[i]? with
  | none => none
  | some pc =>
    match pc with
    | .start =>
      if st.auth then some { st with pcs := st.pcs.set i .done }
      else some { st with pcs := st.pcs.set i .acquiring }
    | .acquiring =>
      match st.lock with
      | none => some { st with lock := some i, pcs := st.pcs.set i .locked }
      | some _ => none
    | .locked =>
      if st.auth then some { st with pcs := st.pcs.set i .releasing }
      else some { st with pcs := st.pcs.set i .loggingIn }
    | .loggingIn =>
      some { st with auth := st.auth || outcome st.logins, logins := st.logins + 1,
                     pcs := st.pcs.set i .releasing }
    | .releasing =>
      some { st with lock := none, pcs := st.pcs.set i .done }
    | .done => none

/-- States reachable from `init` by interleaving task steps in any
order. -/
inductive SimReachable (outcome : Nat → Bool) (init : SimState) : SimState → Prop where
  | refl : SimReachable outcome init init
  | step (st st' : SimState) (i : Nat) :
      SimReachable outcome init st → taskStep outcome st i = some st' →
      SimReachable outcome init st'

/-- Initial state: `n` concurrent `_ensure_logged_in` callers on a
session whose authenticated flag is `auth`. -/
def simInit (n : Nat) (auth : Bool) : SimState :=
  ⟨auth, none, 0, List.replicate n .start⟩

/-- All tasks have completed. -/
def SimState.allDone (st : SimState) : Bool :=
  st.pcs.all (fun pc => pc == .done)

example : pyStrToInt "60" = some 60 := rfl
example : pyStrToInt "soon" = none := rfl
example : pyStrToInt " -42 " = some (-42) := rfl
example : pyStrToInt "1_0" = some 10 := rfl
example : pyStrToInt "1__0" = none := rfl
example : pyInt (.str "32600") = some 32600 := rfl

example :
    Account.from_mapping (Json.obj
      [("TypeID", .num 1), ("Code", .str "32600"), ("Balance", .num 6996),
       ("ActiveReservations", .arr [.obj []])]) = .ok ⟨32600, 6996, 1⟩ := rfl

example :
    extract_permit_media (Json.obj
      [("Permit", .obj [("ZoneCode", .str "zone 4"),
        ("PermitMedias", .arr [.obj [("TypeID", .num 1), ("Code", .str "32600")]])])]) =
      .ok (.obj [("ZoneCode", .str "zone 4"),
        ("PermitMedias", .arr [.obj [("TypeID", .num 1), ("Code", .str "32600")]])],
        .obj [("TypeID", .num 1), ("Code", .str "32600")]) := rfl

example :
    parse_retry_after [("Retry-After", "60")] = some 60 := rfl
example :
    parse_retry_after [("retry-after", "60")] = some 60 := rfl
example :
    parse_retry_after [("Retry-After", "soon")] = none := rfl
example :
    parse_retry_after [] = none := rfl

example :
    Zone.from_mapping 1766448000 (Json.obj
      [("ZoneCode", .str "zone 4"),
       ("BlockTimes", .arr [.obj
         [("ValidFrom", .str "2025-12-23T18:00:00+00:00"),
          ("ValidUntil", .str "2025-12-23T23:00:00+00:00"),
          ("IsFree", .bool false)]])]) =
      .ok (some ⟨"zone 4", "2025-12-23T18:00:00+00:00", "2025-12-23T23:00:00+00:00"⟩) := rfl

example :
    Zone.from_mapping 1766448000 (Json.obj
      [("ZoneCode", .str "zone 4"), ("BlockTimes", .arr [])]) = .ok none := rfl

/-- C5: the parsed Account has id equal to the integer value of `Code`,
remaining_time equal to the integer value of `Balance`, and
active_reservation_count equal to the length of the active-reservations
array when present and array-typed, 0 when absent or null, and a
ParseFailure when present with any other type; a `Code` or `Balance`
without an integer value is a ParseFailure. -/
theorem account_from_mapping_spec (data : Json) :
    (∀ c b, pyInt (data.getPy "Code") = some c →
      pyInt (data.getPy "Balance") = some b →
      (data.getPy "ActiveReservations" = Json.null →
        Account.from_mapping data = .ok ⟨c, b, 0⟩) ∧
      (∀ items, data.getPy "ActiveReservations" = Json.arr items →
        Account.from_mapping data = .ok ⟨c, b, items.length⟩)) ∧
    (∀ v, data.getPy "ActiveReservations" = v → v ≠ Json.null →
      (∀ items, v ≠ Json.arr items) →
      Account.from_mapping data =
        .error (.parseError "Expected permit_media.ActiveReservations list")) ∧
    (pyInt (data.getPy "Code") = none →
      (data.getPy "ActiveReservations" = Json.null ∨
        ∃ items, data.getPy "ActiveReservations" = Json.arr items) →
      Account.from_mapping data =
        .error (.parseError "Invalid int for permit_media.Code")) ∧
    (∀ c, pyInt (data.getPy "Code") = some c →
      pyInt (data.getPy "Balance") = none →
      (data.getPy "ActiveReservations" = Json.null ∨
        ∃ items, data.getPy "ActiveReservations" = Json.arr items) →
      Account.from_mapping data =
        .error (.parseError "Invalid int for permit_media.Balance")) := by
  refine ⟨?_, ?_, ?_, ?_⟩
  · intro c b hc hb
    constructor
    · intro hA
      simp [Account.from_mapping, hA, parse_int, hc, hb, Bind.bind, Except.bind]
    · intro items hA
      simp [Account.from_mapping, hA, parse_int, hc, hb, Bind.bind, Except.bind]
  · intro v hA hnull harr
    cases v with
    | null => exact absurd rfl hnull
    | arr items => exact absurd rfl (harr items)
    | bool b => simp [Account.from_mapping, hA, Bind.bind, Except.bind]
    | num n => simp [Account.from_mapping, hA, Bind.bind, Except.bind]
    | str s => simp [Account.from_mapping, hA, Bind.bind, Except.bind]
    | obj fields => simp [Account.from_mapping, hA, Bind.bind, Except.bind]
  · intro hc hres
    rcases hres with hA | ⟨items, hA⟩ <;>
      simp [Account.from_mapping, hA, parse_int, hc, Bind.bind, Except.bind]
  · intro c hc hb hres
    rcases hres with hA | ⟨items, hA⟩ <;>
      simp [Account.from_mapping, hA, parse_int, hc, hb, Bind.bind, Except.bind]

/-- Witness for `account_from_mapping_spec`: the account payload of the
repository's tests. -/
theorem account_from_mapping_spec_witness :
    Account.from_mapping (Json.obj
      [("TypeID", .num 1), ("Code", .str "32600"), ("Balance", .num 6996),
       ("ActiveReservations", .arr [.obj []])]) = .ok ⟨32600, 6996, 1⟩ :=
  ((account_from_mapping_spec (Json.obj
      [("TypeID", .num 1), ("Code", .str "32600"), ("Balance", .num 6996),
       ("ActiveReservations", .arr [.obj []])])).1 32600 6996 rfl rfl).2 [.obj []] rfl

/-- C10: when the mutation response parses to permit data whose
active-reservations collection is absent, null or an empty array, the
reservation selection of `create_reservation` raises ParseFailure. -/
theorem create_reservation_empty_reservations_fails
    (data p pm : Json) (plate : String) (df du : Option PDateTime)
    (hx : extract_permit_media data = .ok (p, pm))
    (hres : pm.getPy "ActiveReservations" = Json.null ∨
      pm.getPy "ActiveReservations" = Json.arr []) :
    pick_reservation_from_permit data plate df du =
      .error (.parseError "No active reservations in response") := by
  rcases hres with h | h <;>
    simp [pick_reservation_from_permit, hx, h, Json.truthy, ensure_list,
      Bind.bind, Except.bind, List.mapM, List.mapM.loop, pure, Except.pure]

/-- Witness for `create_reservation_empty_reservations_fails`: a permit
response that echoes no reservations. -/
theorem create_reservation_empty_reservations_fails_witness :
    pick_reservation_from_permit
      (Json.obj [("Permit", .obj [("PermitMedias", .arr [.obj [("TypeID", .num 1)]])])])
      "AA11BB" none none =
      .error (.parseError "No active reservations in response") :=
  create_reservation_empty_reservations_fails
    (Json.obj [("Permit", .obj [("PermitMedias", .arr [.obj [("TypeID", .num 1)]])])])
    (.obj [("PermitMedias", .arr [.obj [("TypeID", .num 1)]])])
    (.obj [("TypeID", .num 1)]) "AA11BB" none none rfl (Or.inl rfl)

/-- C7: a 429 response raises RateLimited carrying the parsed
Retry-After header (the integer value when it parses, none when absent
or unparsable), without any retry. -/
theorem rate_limited_spec
    (loginFn : SessionState → Except PermitError SessionState)
    (transport : Nat → TransportEvent) (authRequired : Bool) (st0 : SessionState)
    (r : HttpResponse)
    (hA : authRequired = true → st0.authenticated = true ∧ ∃ t, st0.token = some t)
    (h1 : transport 1 = .response r) (h429 : r.status = 429) :
    ((Auth.request loginFn transport authRequired st0).result =
      .error (.rateLimitError (parse_retry_after r.headers)) ∧
     (Auth.request loginFn transport authRequired st0).sentAuth.length = 1 ∧
     (Auth.request loginFn transport authRequired st0).logins = 0) ∧
    (∀ hs, headerGet hs "Retry-After" = none → parse_retry_after hs = none) ∧
    (∀ hs v, headerGet hs "Retry-After" = some v → parse_retry_after hs = pyStrToInt v) := by
  refine ⟨?_, ?_, ?_⟩
  · cases authRequired with
    | false =>
      simp [Auth.request, build_headers, h1, h429]
    | true =>
      obtain ⟨hauth, t, htok⟩ := hA rfl
      simp [Auth.request, ensure_logged_in, hauth, htok, build_headers, h1, h429]
  · intro hs h
    simp [parse_retry_after, h]
  · intro hs v h
    simp [parse_retry_after, h]

/-- Witness for `rate_limited_spec`: a rate-limited response carrying
`Retry-After: 60` on an authenticated session. -/
theorem rate_limited_spec_witness :
    (Auth.request (fun s => .ok s) (fun _ => .response ⟨429, [("Retry-After", "60")]⟩)
        true ⟨some "tok", true, some 1⟩).result =
      .error (.rateLimitError (some 60)) :=
  ((rate_limited_spec (fun s => .ok s) (fun _ => .response ⟨429, [("Retry-After", "60")]⟩)
      true ⟨some "tok", true, some 1⟩ ⟨429, [("Retry-After", "60")]⟩
      (fun _ => ⟨rfl, "tok", rfl⟩) rfl rfl).1).1

/-- The session invariant of the spec: fully unauthenticated or fully
authenticated, never a partial state. -/
def SessionInv (st : SessionState) : Prop :=
  (st.token = none ∧ st.authenticated = false) ∨
  (∃ t, st.token = some t ∧ st.authenticated = true)

/-- Invalidation always lands in the invariant (unauthenticated side). -/
theorem sessionInv_invalidate (st : SessionState) : SessionInv (invalidate_session st) :=
  Or.inl ⟨rfl, rfl⟩

/-- `ensure_logged_in` preserves the session invariant when the login
does. -/
theorem sessionInv_ensure (loginFn : SessionState → Except PermitError SessionState)
    (st st1 : SessionState)
    (hL : ∀ s s', loginFn s = .ok s' → SessionInv s') (hst : SessionInv st)
    (h : ensure_logged_in loginFn st = .ok st1) : SessionInv st1 := by
  unfold ensure_logged_in at h
  cases ha : st.authenticated with
  | true => rw [ha] at h; simp at h; exact h ▸ hst
  | false => rw [ha] at h; simp at h; exact hL st st1 h

/-- C8: every reachable Session state is fully unauthenticated or fully
authenticated: invalidation establishes the invariant and is idempotent
(a no-op on an unauthenticated session), a successful login sets token
and flag together, and the request pipeline (including its 401/403
handler) preserves the invariant. -/
theorem session_state_invariant :
    (∀ st, SessionInv (invalidate_session st)) ∧
    (∀ st, invalidate_session (invalidate_session st) = invalidate_session st) ∧
    (∀ st, st.token = none → st.authenticated = false → invalidate_session st = st) ∧
    (∀ st data st', login_from_data st data = .ok st' → SessionInv st') ∧
    (∀ loginFn transport authRequired st0,
      (∀ s s', loginFn s = .ok s' → SessionInv s') → SessionInv st0 →
      SessionInv (Auth.request loginFn transport authRequired st0).finalState) := by
  refine ⟨sessionInv_invalidate, ?_, ?_, ?_, ?_⟩
  · intro st; rfl
  · intro st h1 h2
    cases st with
    | mk token auth tid => cases h1; cases h2; rfl
  · intro st data st' h
    unfold login_from_data at h
    cases data with
    | obj fields =>
      dsimp only at h
      by_cases hls : jsonEqNum2 ((Json.obj fields).getPy "LoginStatus") = true
      · rw [if_pos hls] at h; cases h
      · rw [if_neg hls] at h
        by_cases ht : ((Json.obj fields).getPy "Token").truthy = true
        · rw [if_pos ht] at h
          cases h
          exact Or.inr ⟨_, rfl, rfl⟩
        · rw [if_neg ht] at h; cases h
    | null => cases h
    | bool b => cases h
    | num n => cases h
    | str s => cases h
    | arr items => cases h
  · intro loginFn transport authRequired st0 hL hInv
    unfold Auth.request
    dsimp only
    split
    · exact hInv
    · rename_i st1 hE
      have hInv1 : SessionInv st1 := by
        cases authRequired with
        | false => simp at hE; exact hE ▸ hInv
        | true => simp only [if_pos rfl] at hE; exact sessionInv_ensure _ _ _ hL hInv hE
      split
      · exact hInv1
      · split
        · exact hInv1
        · split
          · exact hInv1
          · split
            · split
              · exact sessionInv_invalidate st1
              · rename_i st3 hE2
                have hInv3 : SessionInv st3 :=
                  sessionInv_ensure _ _ _ hL (sessionInv_invalidate st1) hE2
                split
                · exact hInv3
                · split
                  · exact hInv3
                  · split
                    · exact hInv3
                    · split
                      · exact sessionInv_invalidate st3
                      · exact hInv3
            · exact hInv1

/-- Witness for `session_state_invariant`: invalidating a fresh
unauthenticated session is the identity. -/
theorem session_state_invariant_witness :
    invalidate_session ⟨none, false, none⟩ = ⟨none, false, none⟩ :=
  session_state_invariant.2.2.1 ⟨none, false, none⟩ rfl rfl

/-- The authenticated flag after invalidation. -/
theorem invalidate_authenticated (st : SessionState) :
    (invalidate_session st).authenticated = false := rfl

/-- C1: a 401/403 on the first attempt of an authenticated request
invalidates the session, performs exactly one re-login, and retries the
same request once with the refreshed token; a second 401/403 raises
AuthFailure with no third request, while any other non-429 status on the
retry returns that response.  In both cases exactly two transport
requests were issued and exactly one re-authentication performed. -/
theorem auth_request_retries_once_on_auth_failure
    (loginFn : SessionState → Except PermitError SessionState)
    (transport : Nat → TransportEvent) (st0 st1 : SessionState)
    (t t' : String) (r1 : HttpResponse)
    (hAuth : st0.authenticated = true) (hTok : st0.token = some t)
    (h1 : transport 1 = .response r1) (hS1 : r1.status = 401 ∨ r1.status = 403)
    (hLogin : loginFn (invalidate_session st0) = .ok st1)
    (hTok1 : st1.token = some t') :
    (∀ r2, transport 2 = .response r2 → (r2.status = 401 ∨ r2.status = 403) →
      Auth.request loginFn transport true st0 =
        ⟨.error (.authError "Authentication failed"), invalidate_session st1,
          [some t, some t'], 1⟩) ∧
    (∀ r2, transport 2 = .response r2 →
      r2.status ≠ 401 → r2.status ≠ 403 → r2.status ≠ 429 →
      Auth.request loginFn transport true st0 =
        ⟨.ok r2, st1, [some t, some t'], 1⟩) := by
  have h429 : r1.status ≠ 429 := by rcases hS1 with h | h <;> omega
  constructor
  · intro r2 h2 hS2
    have h429b : r2.status ≠ 429 := by rcases hS2 with h | h <;> omega
    simp [Auth.request, ensure_logged_in, hAuth, hTok, build_headers, h1, h429,
      hS1, invalidate_authenticated, hLogin, hTok1, h2, hS2, h429b]
  · intro r2 h2 hS2a hS2b hS2c
    simp [Auth.request, ensure_logged_in, hAuth, hTok, build_headers, h1, h429,
      hS1, invalidate_authenticated, hLogin, hTok1, h2, hS2a, hS2b, hS2c]

/-- Witness for `auth_request_retries_once_on_auth_failure`: a session
whose first call hits 401 twice in a row. -/
theorem auth_request_retries_once_on_auth_failure_witness :
    Auth.request (fun s => .ok { s with token := some "fresh", authenticated := true })
        (fun _ => .response ⟨401, []⟩) true ⟨some "stale", true, some 1⟩ =
      ⟨.error (.authError "Authentication failed"),
        invalidate_session ⟨some "fresh", true, some 1⟩,
        [some "stale", some "fresh"], 1⟩ :=
  (auth_request_retries_once_on_auth_failure
      (fun s => .ok { s with token := some "fresh", authenticated := true })
      (fun _ => .response ⟨401, []⟩) ⟨some "stale", true, some 1⟩
      ⟨some "fresh", true, some 1⟩ "stale" "fresh" ⟨401, []⟩
      rfl rfl rfl (Or.inl rfl) rfl rfl).1 ⟨401, []⟩ rfl (Or.inl rfl)

/-- `Z`-substitution is the identity on strings without a `Z`. -/
theorem replaceZChars_of_not_mem {cs : List Char} (h : 'Z' ∉ cs) :
    replaceZChars cs = cs := by
  induction cs with
  | nil => rfl
  | cons c cs ih =>
    rw [List.mem_cons, not_or] at h
    have hc : ¬(c = 'Z') := fun e => h.1 e.symm
    simp [replaceZChars, hc, ih h.2]

/-- `Z`-substitution turns a trailing bare `Z` into `+00:00`. -/
theorem replaceZChars_append_z {cs : List Char} (h : 'Z' ∉ cs) :
    replaceZChars (cs ++ ['Z']) = cs ++ "+00:00".data := by
  induction cs with
  | nil => rfl
  | cons c cs ih =>
    rw [List.mem_cons, not_or] at h
    have hc : ¬(c = 'Z') := fun e => h.1 e.symm
    simp [replaceZChars, hc, ih h.2]

/-- C6: a bare `Z` suffix is treated as the UTC offset, a value lacking
any offset is assumed UTC, results are converted to UTC and truncated to
whole seconds, and the concrete string of the spec parses to
2025-12-23T00:47:00+00:00 and re-serializes to the same normalized
string. -/
theorem date_parsing_utc_roundtrip :
    (∀ (s : String) (f : String), 'Z' ∉ s.data →
      parse_dt_value (.str (s ++ "Z")) f = parse_dt_value (.str (s ++ "+00:00")) f) ∧
    (∀ (s : String) (f : String) (dt : PDateTime), 'Z' ∉ s.data →
      fromIsoFormat s = some dt → dt.offsetMinutes = none →
      parse_dt_value (.str s) f = .ok { dt with offsetMinutes := some 0 }) ∧
    (∀ (v : Json) (f : String) (dt : PDateTime), parse_dt v f = .ok dt →
      dt.offsetMinutes = some 0 ∧ dt.microsecond = 0) ∧
    parse_dt (.str "2025-12-23T00:47:00") "f" = .ok ⟨2025, 12, 23, 0, 47, 0, 0, some 0⟩ ∧
    dt_to_client ⟨2025, 12, 23, 0, 47, 0, 0, some 0⟩ = "2025-12-23T00:47:00+00:00" := by
  refine ⟨?_, ?_, ?_, rfl, rfl⟩
  · intro s f hZ
    have e1 : replaceZ (s ++ "Z") = String.mk (s.data ++ "+00:00".data) := by
      unfold replaceZ
      rw [String.data_append]
      show String.mk (replaceZChars (s.data ++ ['Z'])) = _
      rw [replaceZChars_append_z hZ]
    have hZ2 : 'Z' ∉ s.data ++ "+00:00".data := by
      rw [List.mem_append, not_or]
      exact ⟨hZ, by decide⟩
    have e2 : replaceZ (s ++ "+00:00") = String.mk (s.data ++ "+00:00".data) := by
      unfold replaceZ
      rw [String.data_append, replaceZChars_of_not_mem hZ2]
    unfold parse_dt_value
    dsimp only
    rw [e1, e2]
  · intro s f dt hZ hiso hoff
    have e : replaceZ s = s := by
      unfold replaceZ
      rw [replaceZChars_of_not_mem hZ]
    unfold parse_dt_value
    dsimp only
    rw [e, hiso]
    dsimp only
    rw [if_pos hoff]
  · intro v f dt h
    unfold parse_dt at h
    cases hpv : parse_dt_value v f with
    | error e => rw [hpv] at h; cases h
    | ok raw =>
      rw [hpv] at h
      simp only [Except.map] at h
      cases h
      exact ⟨rfl, rfl⟩

/-- Witness for `date_parsing_utc_roundtrip`: a bare-`Z` timestamp
parses exactly as the `+00:00` form. -/
theorem date_parsing_utc_roundtrip_witness :
    parse_dt_value (.str ("2025-12-23T10:00" ++ "Z")) "f" =
      parse_dt_value (.str ("2025-12-23T10:00" ++ "+00:00")) "f" :=
  date_parsing_utc_roundtrip.1 "2025-12-23T10:00" "f" (by decide)

/-- `ensure_mapping` succeeds exactly on objects, returning the input. -/
theorem ensure_mapping_ok_iff (d : Json) (l : String) (x : Json) :
    ensure_mapping d l = .ok x ↔ x = d ∧ ∃ fs, d = Json.obj fs := by
  cases d <;> simp [ensure_mapping, eq_comm]

/-- `ensure_mapping` failures are parse failures. -/
theorem ensure_mapping_error_kind (d : Json) (l : String) (e : PermitError)
    (h : ensure_mapping d l = .error e) : ∃ m, e = .parseError m := by
  cases d <;> simp [ensure_mapping] at h <;> exact ⟨_, h.symm⟩

/-- `ensure_list` succeeds exactly on arrays, returning the items. -/
theorem ensure_list_ok_iff (d : Json) (l : String) (xs : List Json) :
    ensure_list d l = .ok xs ↔ d = Json.arr xs := by
  cases d <;> simp [ensure_list, eq_comm]

/-- `ensure_list` failures are parse failures. -/
theorem ensure_list_error_kind (d : Json) (l : String) (e : PermitError)
    (h : ensure_list d l = .error e) : ∃ m, e = .parseError m := by
  cases d <;> simp [ensure_list] at h <;> exact ⟨_, h.symm⟩

/-- Characterization of the permit-choice step. -/
theorem choose_permit_ok_iff (root permit : Json) :
    choose_permit root = .ok permit ↔
      (∃ pf, permit = Json.obj pf) ∧
      ((root.hasKey "Permit" = true ∧ permit = root.getPy "Permit") ∨
       (root.hasKey "Permit" = false ∧ root.hasKey "Permits" = true ∧
         ∃ rest, root.getPy "Permits" = Json.arr (permit :: rest))) := by
  by_cases hP : root.hasKey "Permit"
  · rw [choose_permit, if_pos hP]
    rw [ensure_mapping_ok_iff]
    constructor
    · rintro ⟨hm, fs, hfs⟩
      exact ⟨⟨fs, hm.trans hfs⟩, Or.inl ⟨hP, hm⟩⟩
    · rintro ⟨⟨pf, hpf⟩, h | h⟩
      · exact ⟨h.2, pf, h.2 ▸ hpf⟩
      · rw [h.1] at hP; cases hP
  · rw [choose_permit, if_neg hP]
    by_cases hP2 : root.hasKey "Permits"
    · rw [if_pos hP2]
      cases hv : root.getPy "Permits" with
      | arr items =>
        cases items with
        | nil =>
          simp [Bind.bind, Except.bind, ensure_list, hP, hP2, hv]
        | cons p rest =>
          simp only [Bind.bind, Except.bind, ensure_list, hv]
          rw [ensure_mapping_ok_iff]
          constructor
          · rintro ⟨hm, pf, hpf⟩
            refine ⟨⟨pf, hm.trans hpf⟩,
              Or.inr ⟨by simpa using hP, hP2, rest, ?_⟩⟩
            rw [hm]
          · rintro ⟨⟨pf, hpf⟩, h | h⟩
            · exact absurd h.1 hP
            · obtain ⟨-, -, rest', hr⟩ := h
              obtain ⟨he1, -⟩ := List.cons.inj (Json.arr.inj hr)
              exact ⟨he1.symm, pf, he1.trans hpf⟩
      | null => simp [Bind.bind, Except.bind, ensure_list, hP, hP2, hv]
      | bool b => simp [Bind.bind, Except.bind, ensure_list, hP, hP2, hv]
      | num n => simp [Bind.bind, Except.bind, ensure_list, hP, hP2, hv]
      | str s => simp [Bind.bind, Except.bind, ensure_list, hP, hP2, hv]
      | obj fs => simp [Bind.bind, Except.bind, ensure_list, hP, hP2, hv]
    · rw [if_neg hP2]
      simp [hP, hP2]

/-- Failures of the permit-choice step are parse failures. -/
theorem choose_permit_error_kind (root : Json) (e : PermitError)
    (h : choose_permit root = .error e) : ∃ m, e = .parseError m := by
  by_cases hP : root.hasKey "Permit"
  · rw [choose_permit, if_pos hP] at h
    exact ensure_mapping_error_kind _ _ _ h
  · rw [choose_permit, if_neg hP] at h
    by_cases hP2 : root.hasKey "Permits"
    · rw [if_pos hP2] at h
      simp only [Bind.bind, Except.bind] at h
      cases hv : ensure_list (root.getPy "Permits") "permits" with
      | error e2 =>
        rw [hv] at h
        cases h
        exact ensure_list_error_kind _ _ _ hv
      | ok items =>
        rw [hv] at h
        cases items with
        | nil => cases h; exact ⟨_, rfl⟩
        | cons p rest => exact ensure_mapping_error_kind _ _ _ h
    · rw [if_neg hP2] at h
      cases h
      exact ⟨_, rfl⟩

/-- Characterization of the permit-media step. -/
theorem extract_media_ok_iff (permit media : Json) :
    extract_media_from_permit permit = .ok media ↔
      (∃ rest, permit.getPy "PermitMedias" = Json.arr (media :: rest)) ∧
      ∃ mf, media = Json.obj mf := by
  unfold extract_media_from_permit
  cases hv : permit.getPy "PermitMedias" with
  | arr items =>
    cases items with
    | nil => simp [Bind.bind, Except.bind, ensure_list]
    | cons pm rest =>
      simp only [Bind.bind, Except.bind, ensure_list]
      rw [ensure_mapping_ok_iff]
      constructor
      · rintro ⟨hm, mf, hmf⟩
        exact ⟨⟨rest, by rw [hm]⟩, mf, hm.trans hmf⟩
      · rintro ⟨⟨rest', hr⟩, mf, hmf⟩
        obtain ⟨he1, -⟩ := List.cons.inj (Json.arr.inj hr)
        exact ⟨he1.symm, mf, he1.trans hmf⟩
  | null => simp [Bind.bind, Except.bind, ensure_list]
  | bool b => simp [Bind.bind, Except.bind, ensure_list]
  | num n => simp [Bind.bind, Except.bind, ensure_list]
  | str s => simp [Bind.bind, Except.bind, ensure_list]
  | obj fs => simp [Bind.bind, Except.bind, ensure_list]

/-- Failures of the permit-media step are parse failures. -/
theorem extract_media_error_kind (permit : Json) (e : PermitError)
    (h : extract_media_from_permit permit = .error e) : ∃ m, e = .parseError m := by
  unfold extract_media_from_permit at h
  simp only [Bind.bind, Except.bind] at h
  cases hv : ensure_list (permit.getPy "PermitMedias") "permit.PermitMedias" with
  | error e2 =>
    rw [hv] at h
    cases h
    exact ensure_list_error_kind _ _ _ hv
  | ok items =>
    rw [hv] at h
    cases items with
    | nil => cases h; exact ⟨_, rfl⟩
    | cons pm rest => exact ensure_mapping_error_kind _ _ _ h

/-- The extractor in terms of its two steps. -/
theorem extract_permit_media_eq (data : Json) (permit media : Json) :
    extract_permit_media data = .ok (permit, media) ↔
      (∃ fs, data = Json.obj fs) ∧ choose_permit data = .ok permit ∧
        extract_media_from_permit permit = .ok media := by
  unfold extract_permit_media
  simp only [Bind.bind, Except.bind]
  cases data with
  | obj fs =>
    simp only [ensure_mapping]
    try dsimp only
    cases hc : choose_permit (Json.obj fs) with
    | error e =>
      try dsimp only
      constructor
      · intro h; cases h
      · rintro ⟨-, hp, -⟩; cases hp
    | ok p =>
      try dsimp only
      cases hm : extract_media_from_permit p with
      | error e =>
        try dsimp only
        constructor
        · intro h; cases h
        · rintro ⟨-, hp, hmm⟩
          cases hp
          rw [hm] at hmm
          cases hmm
      | ok m2 =>
        try dsimp only
        constructor
        · intro h
          obtain ⟨h1, h2⟩ := Prod.mk.inj (Except.ok.inj h)
          subst h1
          subst h2
          exact ⟨⟨fs, rfl⟩, rfl, hm⟩
        · rintro ⟨-, hp, hmm⟩
          cases hp
          rw [hm] at hmm
          cases hmm
          rfl
  | null => simp [ensure_mapping]
  | bool b => simp [ensure_mapping]
  | num n => simp [ensure_mapping]
  | str s => simp [ensure_mapping]
  | arr items => simp [ensure_mapping]

/-- C2: a non-object response is a ParseFailure; a `Permit` key is used
directly; otherwise a `Permits` key must hold a non-empty array whose
first element (an object) is used; otherwise ParseFailure; the chosen
permit's `PermitMedias` must be a non-empty array whose first element
(an object) is the active permit-media; emptiness anywhere is a
ParseFailure, and success returns the (permit, permit-media) pair. -/
theorem extract_permit_media_spec (data : Json) :
    (∀ permit media, extract_permit_media data = .ok (permit, media) ↔
      ((∃ fields, data = Json.obj fields) ∧
       ((data.hasKey "Permit" = true ∧ permit = data.getPy "Permit") ∨
        (data.hasKey "Permit" = false ∧ data.hasKey "Permits" = true ∧
          ∃ rest, data.getPy "Permits" = Json.arr (permit :: rest))) ∧
       (∃ pf, permit = Json.obj pf) ∧
       (∃ rest, permit.getPy "PermitMedias" = Json.arr (media :: rest)) ∧
       (∃ mf, media = Json.obj mf))) ∧
    ((∀ fields, data ≠ Json.obj fields) →
      extract_permit_media data = .error (.parseError "Expected response object")) ∧
    (∀ fields, data = Json.obj fields → data.hasKey "Permit" = false →
      data.hasKey "Permits" = false →
      extract_permit_media data = .error (.parseError "Expected permit data in response")) ∧
    (∀ e, extract_permit_media data = .error e → ∃ msg, e = .parseError msg) := by
  refine ⟨?_, ?_, ?_, ?_⟩
  · intro permit media
    rw [extract_permit_media_eq, choose_permit_ok_iff, extract_media_ok_iff]
    constructor
    · rintro ⟨hobj, ⟨hpobj, hchoice⟩, hmedias, hmobj⟩
      exact ⟨hobj, hchoice, hpobj, hmedias, hmobj⟩
    · rintro ⟨hobj, hchoice, hpobj, hmedias, hmobj⟩
      exact ⟨hobj, ⟨hpobj, hchoice⟩, hmedias, hmobj⟩
  · intro hno
    cases data with
    | obj fs => exact absurd rfl (hno fs)
    | null => rfl
    | bool b => rfl
    | num n => rfl
    | str s => rfl
    | arr items => rfl
  · intro fs hdata hP hP2
    subst hdata
    have hcp : choose_permit (Json.obj fs) =
        .error (.parseError "Expected permit data in response") := by
      unfold choose_permit
      rw [if_neg (by simp [hP]), if_neg (by simp [hP2])]
    simp [extract_permit_media, Bind.bind, Except.bind, ensure_mapping, hcp]
  · intro e h
    cases data with
    | obj fs =>
      unfold extract_permit_media at h
      simp only [Bind.bind, Except.bind, ensure_mapping] at h
      cases hc : choose_permit (Json.obj fs) with
      | error e2 =>
        rw [hc] at h
        obtain rfl := Except.error.inj h
        exact choose_permit_error_kind _ _ hc
      | ok p =>
        rw [hc] at h
        dsimp only at h
        cases hm : extract_media_from_permit p with
        | error e2 =>
          rw [hm] at h
          obtain rfl := Except.error.inj h
          exact extract_media_error_kind _ _ hm
        | ok m2 =>
          rw [hm] at h
          simp at h
    | null => exact ⟨_, (Except.error.inj h).symm⟩
    | bool b => exact ⟨_, (Except.error.inj h).symm⟩
    | num n => exact ⟨_, (Except.error.inj h).symm⟩
    | str s => exact ⟨_, (Except.error.inj h).symm⟩
    | arr items => exact ⟨_, (Except.error.inj h).symm⟩

/-- Witness for `extract_permit_media_spec`: a plural-key response with
one permit holding one permit-media. -/
theorem extract_permit_media_spec_witness :
    extract_permit_media
      (Json.obj [("Permits", .arr [.obj [("PermitMedias", .arr [.obj []])]])]) =
      .ok (.obj [("PermitMedias", .arr [.obj []])], .obj []) :=
  ((extract_permit_media_spec
      (Json.obj [("Permits", .arr [.obj [("PermitMedias", .arr [.obj []])]])])).1
    (.obj [("PermitMedias", .arr [.obj []])]) (.obj [])).mpr
    ⟨⟨_, rfl⟩, Or.inr ⟨rfl, rfl, [], rfl⟩, ⟨_, rfl⟩, ⟨[], rfl⟩, ⟨[], rfl⟩⟩

/-- A successful extraction implies the response was an object carrying
a `Permit` or `Permits` key. -/
theorem extract_ok_shape (data p m : Json) (h : extract_permit_media data = .ok (p, m)) :
    data.isObj = true ∧ (data.hasKey "Permit" || data.hasKey "Permits") = true := by
  rw [extract_permit_media_eq] at h
  obtain ⟨⟨fs, rfl⟩, hc, -⟩ := h
  rw [choose_permit_ok_iff] at hc
  obtain ⟨-, hch⟩ := hc
  refine ⟨rfl, ?_⟩
  rcases hch with ⟨h1, -⟩ | ⟨-, h2, -⟩
  · simp [h1]
  · simp [h2]

/-- C4 counterexample: `async_end_reservation` hands the decoded body to
the strict default refresh, so a successful response with an empty body
(decoded as null) raises ParseFailure instead of leaving the defaults
unchanged. -/
theorem end_reservation_empty_body_fails :
    end_reservation_finish ⟨some 1, some "32600"⟩ Json.null =
      .error (.parseError "Expected response object") := rfl

/-- C4 amended: for the favorite mutations (create/update/delete
favorite) a successful response carrying valid permit data refreshes the
stored defaults, and a response not carrying permit data (null body,
non-object, or object without a permit key) leaves them unchanged
without failing; `async_end_reservation` (and `async_create_reservation`)
instead pass the body to the strict extractor, so an empty body is a
ParseFailure there. -/
theorem mutation_defaults_refresh_spec :
    (∀ st, favorite_mutation_finish st Json.null = .ok st) ∧
    (∀ st data, data.isObj = false → favorite_mutation_finish st data = .ok st) ∧
    (∀ (st : ApiState) (fs : List (String × Json)),
      (Json.obj fs).hasKey "Permit" = false → (Json.obj fs).hasKey "Permits" = false →
      favorite_mutation_finish st (Json.obj fs) = .ok st) ∧
    (∀ st data p pm tv n c, extract_permit_media data = .ok (p, pm) →
      pm.get? "TypeID" = some tv → pyInt tv = some n →
      pm.get? "Code" = some (.str c) →
      favorite_mutation_finish st data = .ok ⟨some n, some c⟩) ∧
    (∀ st, end_reservation_finish st Json.null =
      .error (.parseError "Expected response object")) := by
  refine ⟨?_, ?_, ?_, ?_, ?_⟩
  · intro st; rfl
  · intro st data h
    cases data with
    | obj fs => simp [Json.isObj] at h
    | null => rfl
    | bool b => rfl
    | num n => rfl
    | str s => rfl
    | arr items => rfl
  · intro st fs hP hP2
    unfold favorite_mutation_finish maybe_update_defaults_from_response
    dsimp only
    rw [if_neg (by simp [hP, hP2])]
  · intro st data p pm tv n c hx ht hn hc2
    obtain ⟨hobj, hkeys⟩ := extract_ok_shape _ _ _ hx
    cases data with
    | obj fs =>
      unfold favorite_mutation_finish maybe_update_defaults_from_response
      dsimp only
      rw [if_pos hkeys]
      unfold update_defaults_from_response
      simp [Bind.bind, Except.bind, hx, update_defaults, ht, hn, hc2]
    | null => simp [Json.isObj] at hobj
    | bool b => simp [Json.isObj] at hobj
    | num m => simp [Json.isObj] at hobj
    | str s => simp [Json.isObj] at hobj
    | arr items => simp [Json.isObj] at hobj
  · intro st; rfl

/-- Witness for `mutation_defaults_refresh_spec`: a favorite mutation
whose response carries permit data refreshes the stored defaults. -/
theorem mutation_defaults_refresh_spec_witness :
    favorite_mutation_finish ⟨none, none⟩
      (Json.obj [("Permit", .obj [("PermitMedias",
        .arr [.obj [("TypeID", .num 1), ("Code", .str "32600")]])])]) =
      .ok ⟨some 1, some "32600"⟩ :=
  mutation_defaults_refresh_spec.2.2.2.1 ⟨none, none⟩
    (Json.obj [("Permit", .obj [("PermitMedias",
      .arr [.obj [("TypeID", .num 1), ("Code", .str "32600")]])])])
    (.obj [("PermitMedias", .arr [.obj [("TypeID", .num 1), ("Code", .str "32600")]])])
    (.obj [("TypeID", .num 1), ("Code", .str "32600")])
    (.num 1) 1 "32600" rfl rfl rfl rfl

/-- Claim-side condition (C3): a block-times entry the zone scan passes
over — flagged free, or with parseable dates whose start date (in the
entry's own offset) is not today in that offset. -/
def zoneEntrySkipped (nowEpoch : Int) (item : Json) : Prop :=
  item.getPy "IsFree" = Json.bool true ∨
  (∃ s e, parse_dt_value (item.getPy "ValidFrom") "block.ValidFrom" = .ok s ∧
    parse_dt_value (item.getPy "ValidUntil") "block.ValidUntil" = .ok e ∧
    s.dateTriple ≠ dateInOffset nowEpoch (s.offsetMinutes.getD 0))

/-- Claim-side condition (C3): an entry on which the zone scan must
fail — not an object, or non-free with an unparsable start or end. -/
def zoneEntryBad (item : Json) : Prop :=
  (∀ fs, item ≠ Json.obj fs) ∨
  (item.getPy "IsFree" ≠ Json.bool true ∧
    ((∀ s, parse_dt_value (item.getPy "ValidFrom") "block.ValidFrom" ≠ .ok s) ∨
     (∀ e, parse_dt_value (item.getPy "ValidUntil") "block.ValidUntil" ≠ .ok e)))

/-- Scan equation: a free entry is skipped. -/
theorem collectPaidBlocks_cons_free (nowEpoch : Int) (fs : List (String × Json))
    (rest : List Json) (hfree : (Json.obj fs).getPy "IsFree" = Json.bool true) :
    collectPaidBlocks nowEpoch (Json.obj fs :: rest) = collectPaidBlocks nowEpoch rest := by
  simp only [collectPaidBlocks, hfree]

/-- Scan equation: a non-free entry is parsed and kept when on today. -/
theorem collectPaidBlocks_cons_nonfree (nowEpoch : Int) (fs : List (String × Json))
    (rest : List Json) (hfree : (Json.obj fs).getPy "IsFree" ≠ Json.bool true) :
    collectPaidBlocks nowEpoch (Json.obj fs :: rest) =
      (do
        let s ← parse_dt_value ((Json.obj fs).getPy "ValidFrom") "block.ValidFrom"
        let en ← parse_dt_value ((Json.obj fs).getPy "ValidUntil") "block.ValidUntil"
        if s.dateTriple ≠ dateInOffset nowEpoch (s.offsetMinutes.getD 0) then
          collectPaidBlocks nowEpoch rest
        else do
          let tail ← collectPaidBlocks nowEpoch rest
          .ok ((s, en) :: tail)) := by
  cases hv : (Json.obj fs).getPy "IsFree" with
  | bool b =>
    cases b with
    | true => exact absurd hv hfree
    | false => simp only [collectPaidBlocks, hv]
  | null => simp only [collectPaidBlocks, hv]
  | num n => simp only [collectPaidBlocks, hv]
  | str s2 => simp only [collectPaidBlocks, hv]
  | arr a => simp only [collectPaidBlocks, hv]
  | obj o => simp only [collectPaidBlocks, hv]

/-- Scan equation: a non-object entry fails. -/
theorem collectPaidBlocks_cons_nonobj (nowEpoch : Int) (item : Json)
    (rest : List Json) (h : ∀ fs, item ≠ Json.obj fs) :
    collectPaidBlocks nowEpoch (item :: rest) =
      .error (.parseError "Expected permit.BlockTimes item object") := by
  cases item with
  | obj fs => exact absurd rfl (h fs)
  | null => rfl
  | bool b => rfl
  | num n => rfl
  | str s2 => rfl
  | arr a => rfl

/-- The zone scan yields no paid block exactly when every entry is an
object that is skipped (free, or parseable and off-day). -/
theorem collectPaidBlocks_nil_iff (nowEpoch : Int) (items : List Json) :
    collectPaidBlocks nowEpoch items = .ok [] ↔
      ∀ item ∈ items, (∃ fs, item = Json.obj fs) ∧ zoneEntrySkipped nowEpoch item := by
  induction items with
  | nil => simp [collectPaidBlocks]
  | cons item rest ih =>
    by_cases hobj : ∃ fs, item = Json.obj fs
    · obtain ⟨fs, rfl⟩ := hobj
      by_cases hfree : (Json.obj fs).getPy "IsFree" = Json.bool true
      · rw [collectPaidBlocks_cons_free _ _ _ hfree, ih]
        simp only [List.mem_cons, forall_eq_or_imp]
        constructor
        · intro h
          exact ⟨⟨⟨fs, rfl⟩, Or.inl hfree⟩, h⟩
        · intro h
          exact h.2
      · rw [collectPaidBlocks_cons_nonfree _ _ _ hfree]
        cases hfrom : parse_dt_value ((Json.obj fs).getPy "ValidFrom") "block.ValidFrom" with
        | error e =>
          simp only [hfrom, Bind.bind, Except.bind]
          constructor
          · intro h; cases h
          · intro h
            rcases (h _ (List.mem_cons_self _ _)).2 with hf | ⟨s, e2, hs, -, -⟩
            · exact absurd hf hfree
            · rw [hfrom] at hs; cases hs
        | ok s =>
          cases huntil :
              parse_dt_value ((Json.obj fs).getPy "ValidUntil") "block.ValidUntil" with
          | error e =>
            simp only [hfrom, huntil, Bind.bind, Except.bind]
            constructor
            · intro h; cases h
            · intro h
              rcases (h _ (List.mem_cons_self _ _)).2 with hf | ⟨s2, e2, -, he, -⟩
              · exact absurd hf hfree
              · rw [huntil] at he; cases he
          | ok en =>
            simp only [hfrom, huntil, Bind.bind, Except.bind]
            by_cases hday : s.dateTriple = dateInOffset nowEpoch (s.offsetMinutes.getD 0)
            · rw [if_neg (not_not_intro hday)]
              constructor
              · intro h
                cases hc : collectPaidBlocks nowEpoch rest with
                | error e => rw [hc] at h; cases h
                | ok tail => rw [hc] at h; simp at h
              · intro h
                rcases (h _ (List.mem_cons_self _ _)).2 with hf | ⟨s2, e2, hs, -, hd⟩
                · exact absurd hf hfree
                · rw [hfrom] at hs
                  obtain rfl := Except.ok.inj hs
                  exact absurd hday hd
            · rw [if_pos hday, ih]
              simp only [List.mem_cons, forall_eq_or_imp]
              constructor
              · intro h
                exact ⟨⟨⟨fs, rfl⟩, Or.inr ⟨s, en, hfrom, huntil, hday⟩⟩, h⟩
              · intro h
                exact h.2
    · rw [collectPaidBlocks_cons_nonobj _ _ _ (fun fs hf => hobj ⟨fs, hf⟩)]
      constructor
      · intro h; cases h
      · intro h
        exact absurd (h _ (List.mem_cons_self _ _)).1 hobj

/-- `parse_dt_value` failures are parse failures. -/
theorem parse_dt_value_error_kind (v : Json) (f : String) (e : PermitError)
    (h : parse_dt_value v f = .error e) : ∃ m, e = .parseError m := by
  unfold parse_dt_value at h
  cases v with
  | str s =>
    dsimp only at h
    cases hi : fromIsoFormat (replaceZ s) with
    | none => rw [hi] at h; exact ⟨_, (Except.error.inj h).symm⟩
    | some dt =>
      rw [hi] at h
      dsimp only at h
      by_cases hoff : dt.offsetMinutes = none
      · rw [if_pos hoff] at h; cases h
      · rw [if_neg hoff] at h; cases h
  | null => exact ⟨_, (Except.error.inj h).symm⟩
  | bool b => exact ⟨_, (Except.error.inj h).symm⟩
  | num n => exact ⟨_, (Except.error.inj h).symm⟩
  | arr a => exact ⟨_, (Except.error.inj h).symm⟩
  | obj o => exact ⟨_, (Except.error.inj h).symm⟩

/-- Python `min` by start: the result is a member attaining the least
start instant (the first such member). -/
theorem minByStart_mem (x : PDateTime × PDateTime) (xs : List (PDateTime × PDateTime)) :
    minByStart x xs ∈ x :: xs ∧
    ∀ q ∈ x :: xs, (minByStart x xs).1.instantMicros ≤ q.1.instantMicros := by
  induction xs generalizing x with
  | nil =>
    refine ⟨List.mem_cons_self _ _, ?_⟩
    intro q hq
    rcases List.mem_cons.mp hq with rfl | h
    · exact le_refl _
    · cases h
  | cons y ys ih =>
    by_cases hlt : y.1.instantMicros < x.1.instantMicros
    · have hstep : minByStart x (y :: ys) = minByStart y ys := by
        simp [minByStart, hlt]
      obtain ⟨hmem, hbound⟩ := ih y
      rw [hstep]
      refine ⟨?_, ?_⟩
      · rcases List.mem_cons.mp hmem with h | h
        · rw [h]; exact List.mem_cons_of_mem _ (List.mem_cons_self _ _)
        · exact List.mem_cons_of_mem _ (List.mem_cons_of_mem _ h)
      · intro q hq
        rcases List.mem_cons.mp hq with rfl | hq2
        · exact (hbound y (List.mem_cons_self _ _)).trans (le_of_lt hlt)
        · exact hbound q hq2
    · have hstep : minByStart x (y :: ys) = minByStart x ys := by
        simp [minByStart, hlt]
      obtain ⟨hmem, hbound⟩ := ih x
      rw [hstep]
      refine ⟨?_, ?_⟩
      · rcases List.mem_cons.mp hmem with h | h
        · rw [h]; exact List.mem_cons_self _ _
        · exact List.mem_cons_of_mem _ (List.mem_cons_of_mem _ h)
      · intro q hq
        rcases List.mem_cons.mp hq with rfl | hq2
        · exact hbound q (List.mem_cons_self _ _)
        · rcases List.mem_cons.mp hq2 with rfl | hq3
          · exact (hbound x (List.mem_cons_self _ _)).trans (not_lt.mp hlt)
          · exact hbound q (List.mem_cons_of_mem _ hq3)

/-- Every collected paid block comes from a non-free, same-day entry of
the scanned list, with exactly its parsed start and end. -/
theorem collectPaidBlocks_mem (nowEpoch : Int) (items : List Json)
    (blocks : List (PDateTime × PDateTime))
    (h : collectPaidBlocks nowEpoch items = .ok blocks) :
    ∀ b ∈ blocks, ∃ item, item ∈ items ∧ (∃ fs, item = Json.obj fs) ∧
      item.getPy "IsFree" ≠ Json.bool true ∧
      parse_dt_value (item.getPy "ValidFrom") "block.ValidFrom" = .ok b.1 ∧
      parse_dt_value (item.getPy "ValidUntil") "block.ValidUntil" = .ok b.2 ∧
      b.1.dateTriple = dateInOffset nowEpoch (b.1.offsetMinutes.getD 0) := by
  induction items generalizing blocks with
  | nil =>
    simp only [collectPaidBlocks] at h
    obtain rfl := (Except.ok.inj h)
    intro b hb
    cases hb
  | cons hd rest ih =>
    by_cases hobj : ∃ fs, hd = Json.obj fs
    · obtain ⟨fs, rfl⟩ := hobj
      by_cases hfree : (Json.obj fs).getPy "IsFree" = Json.bool true
      · rw [collectPaidBlocks_cons_free _ _ _ hfree] at h
        intro b hb
        obtain ⟨it, hmem, hrest⟩ := ih blocks h b hb
        exact ⟨it, List.mem_cons_of_mem _ hmem, hrest⟩
      · rw [collectPaidBlocks_cons_nonfree _ _ _ hfree] at h
        cases hfrom : parse_dt_value ((Json.obj fs).getPy "ValidFrom") "block.ValidFrom" with
        | error e => rw [hfrom] at h; simp [Bind.bind, Except.bind] at h
        | ok s =>
          cases huntil :
              parse_dt_value ((Json.obj fs).getPy "ValidUntil") "block.ValidUntil" with
          | error e =>
            rw [hfrom, huntil] at h
            simp [Bind.bind, Except.bind] at h
          | ok en =>
            rw [hfrom, huntil] at h
            simp only [Bind.bind, Except.bind] at h
            by_cases hday : s.dateTriple = dateInOffset nowEpoch (s.offsetMinutes.getD 0)
            · rw [if_neg (not_not_intro hday)] at h
              cases hc : collectPaidBlocks nowEpoch rest with
              | error e => rw [hc] at h; cases h
              | ok tail =>
                rw [hc] at h
                dsimp only at h
                obtain rfl := (Except.ok.inj h)
                intro b hb
                rcases List.mem_cons.mp hb with rfl | hb2
                · exact ⟨Json.obj fs, List.mem_cons_self _ _, ⟨fs, rfl⟩, hfree,
                    hfrom, huntil, hday⟩
                · obtain ⟨it, hmem, hrest⟩ := ih tail hc b hb2
                  exact ⟨it, List.mem_cons_of_mem _ hmem, hrest⟩
            · rw [if_pos hday] at h
              intro b hb
              obtain ⟨it, hmem, hrest⟩ := ih blocks h b hb
              exact ⟨it, List.mem_cons_of_mem _ hmem, hrest⟩
    · rw [collectPaidBlocks_cons_nonobj _ _ _ (fun fs hf => hobj ⟨fs, hf⟩)] at h
      cases h

/-- A bad entry anywhere in the scanned list makes the scan fail with a
parse failure. -/
theorem collectPaidBlocks_bad (nowEpoch : Int) (items : List Json) (item : Json)
    (hmem : item ∈ items) (hbad : zoneEntryBad item) :
    ∃ m, collectPaidBlocks nowEpoch items = .error (.parseError m) := by
  induction items with
  | nil => cases hmem
  | cons hd rest ih =>
    rcases List.mem_cons.mp hmem with rfl | hmem2
    · rcases hbad with hnobj | ⟨hfree, hbadparse⟩
      · exact ⟨_, collectPaidBlocks_cons_nonobj _ _ _ hnobj⟩
      · by_cases hobj : ∃ fs, item = Json.obj fs
        · obtain ⟨fs, rfl⟩ := hobj
          rw [collectPaidBlocks_cons_nonfree _ _ _ hfree]
          cases hfrom : parse_dt_value ((Json.obj fs).getPy "ValidFrom") "block.ValidFrom" with
          | error e =>
            obtain ⟨m, rfl⟩ := parse_dt_value_error_kind _ _ _ hfrom
            refine ⟨m, ?_⟩
            simp [hfrom, Bind.bind, Except.bind]
          | ok s =>
            rcases hbadparse with hf | hu
            · exact absurd hfrom (hf s)
            · cases huntil :
                  parse_dt_value ((Json.obj fs).getPy "ValidUntil") "block.ValidUntil" with
              | error e =>
                obtain ⟨m, rfl⟩ := parse_dt_value_error_kind _ _ _ huntil
                refine ⟨m, ?_⟩
                simp [hfrom, huntil, Bind.bind, Except.bind]
              | ok en => exact absurd huntil (hu en)
        · exact ⟨_, collectPaidBlocks_cons_nonobj _ _ _ (fun fs hf => hobj ⟨fs, hf⟩)⟩
    · by_cases hobj : ∃ fs, hd = Json.obj fs
      · obtain ⟨fs, rfl⟩ := hobj
        by_cases hfree : (Json.obj fs).getPy "IsFree" = Json.bool true
        · rw [collectPaidBlocks_cons_free _ _ _ hfree]
          exact ih hmem2
        · rw [collectPaidBlocks_cons_nonfree _ _ _ hfree]
          cases hfrom : parse_dt_value ((Json.obj fs).getPy "ValidFrom") "block.ValidFrom" with
          | error e =>
            obtain ⟨m, rfl⟩ := parse_dt_value_error_kind _ _ _ hfrom
            refine ⟨m, ?_⟩
            simp [hfrom, Bind.bind, Except.bind]
          | ok s =>
            cases huntil :
                parse_dt_value ((Json.obj fs).getPy "ValidUntil") "block.ValidUntil" with
            | error e =>
              obtain ⟨m, rfl⟩ := parse_dt_value_error_kind _ _ _ huntil
              refine ⟨m, ?_⟩
              simp [hfrom, huntil, Bind.bind, Except.bind]
            | ok en =>
              obtain ⟨m, hm⟩ := ih hmem2
              refine ⟨m, ?_⟩
              simp only [hfrom, huntil, Bind.bind, Except.bind]
              by_cases hday : s.dateTriple = dateInOffset nowEpoch (s.offsetMinutes.getD 0)
              · rw [if_neg (not_not_intro hday), hm]
              · rw [if_pos hday]
                exact hm
      · exact ⟨_, collectPaidBlocks_cons_nonobj _ _ _ (fun fs hf => hobj ⟨fs, hf⟩)⟩

/-- `Zone.from_mapping` in terms of the scan, under a string `ZoneCode`
and an array `BlockTimes`. -/
theorem zone_from_mapping_reduce (nowEpoch : Int) (data : Json) (z : String)
    (items : List Json) (hz : data.getPy "ZoneCode" = .str z)
    (hb : data.getPy "BlockTimes" = Json.arr items) :
    Zone.from_mapping nowEpoch data =
      (collectPaidBlocks nowEpoch items).bind (fun paid =>
        match paid with
        | [] => .ok none
        | b :: bs => .ok (some ⟨z, dt_to_client (minByStart b bs).1,
            dt_to_client (minByStart b bs).2⟩)) := by
  unfold Zone.from_mapping
  rw [hz]
  simp only [parse_str, Bind.bind, Except.bind]
  rw [hb]

/-- C3: under a string `ZoneCode`, a missing or non-array `BlockTimes`
is a ParseFailure; the result is none exactly when every entry is an
object that is free or parses to an off-day start (in its own offset);
otherwise the result carries the zone id with the UTC-normalized start
and end of the surviving entry with the earliest start, every survivor
coming from a non-free same-day entry; a non-object entry or an
unparsable date on a non-free entry is a ParseFailure. -/
theorem zone_from_mapping_spec (nowEpoch : Int) (data : Json) (z : String)
    (hz : data.getPy "ZoneCode" = .str z) :
    (∀ v, data.getPy "BlockTimes" = v → (∀ l, v ≠ Json.arr l) →
      Zone.from_mapping nowEpoch data =
        .error (.parseError "Expected permit.BlockTimes list")) ∧
    (∀ items, data.getPy "BlockTimes" = Json.arr items →
      ((Zone.from_mapping nowEpoch data = .ok none ↔
        ∀ item ∈ items, (∃ fs, item = Json.obj fs) ∧ zoneEntrySkipped nowEpoch item) ∧
       (∀ b bs, collectPaidBlocks nowEpoch items = .ok (b :: bs) →
        minByStart b bs ∈ b :: bs ∧
        (∀ q ∈ b :: bs, (minByStart b bs).1.instantMicros ≤ q.1.instantMicros) ∧
        Zone.from_mapping nowEpoch data =
          .ok (some ⟨z, dt_to_client (minByStart b bs).1,
            dt_to_client (minByStart b bs).2⟩)) ∧
       (∀ blocks, collectPaidBlocks nowEpoch items = .ok blocks →
        ∀ b ∈ blocks, ∃ item, item ∈ items ∧ (∃ fs, item = Json.obj fs) ∧
          item.getPy "IsFree" ≠ Json.bool true ∧
          parse_dt_value (item.getPy "ValidFrom") "block.ValidFrom" = .ok b.1 ∧
          parse_dt_value (item.getPy "ValidUntil") "block.ValidUntil" = .ok b.2 ∧
          b.1.dateTriple = dateInOffset nowEpoch (b.1.offsetMinutes.getD 0)) ∧
       (∀ item ∈ items, zoneEntryBad item →
        ∃ m, Zone.from_mapping nowEpoch data = .error (.parseError m)))) := by
  constructor
  · intro v hv hnarr
    unfold Zone.from_mapping
    rw [hz]
    simp only [parse_str, Bind.bind, Except.bind]
    rw [hv]
    cases v with
    | arr l => exact absurd rfl (hnarr l)
    | null => rfl
    | bool b => rfl
    | num n => rfl
    | str s => rfl
    | obj fs => rfl
  · intro items hb
    have hred := zone_from_mapping_reduce nowEpoch data z items hz hb
    refine ⟨?_, ?_, ?_, ?_⟩
    · rw [hred, ← collectPaidBlocks_nil_iff nowEpoch items]
      cases hc : collectPaidBlocks nowEpoch items with
      | error e => simp [Except.bind]
      | ok paid =>
        cases paid with
        | nil => simp [Except.bind]
        | cons b bs => simp [Except.bind]
    · intro b bs hc
      obtain ⟨hmem, hbound⟩ := minByStart_mem b bs
      refine ⟨hmem, hbound, ?_⟩
      rw [hred, hc]
      rfl
    · intro blocks hc
      exact collectPaidBlocks_mem nowEpoch items blocks hc
    · intro item hmem hbad
      obtain ⟨m, hm⟩ := collectPaidBlocks_bad nowEpoch items item hmem hbad
      refine ⟨m, ?_⟩
      rw [hred, hm]
      rfl

/-- Witness for `zone_from_mapping_spec`: an empty block-times array
yields no zone. -/
theorem zone_from_mapping_spec_witness :
    Zone.from_mapping 1766448000
      (Json.obj [("ZoneCode", .str "zone 4"), ("BlockTimes", .arr [])]) = .ok none :=
  (((zone_from_mapping_spec 1766448000
      (Json.obj [("ZoneCode", .str "zone 4"), ("BlockTimes", .arr [])]) "zone 4" rfl).2
    [] rfl).1).mpr (fun item h => absurd h (List.not_mem_nil item))

/-- A successful indexed lookup is within bounds. -/
theorem pcs_lt_of_getElem {l : List TaskPc} {i : Nat} {pc : TaskPc}
    (h : l[i]? = some pc) : i < l.length := by
  by_contra hge
  rw [List.getElem?_eq_none (le_of_not_lt hge)] at h
  cases h

/-- Indexed lookup after `List.set`. -/
theorem set_getElem? (l : List TaskPc) (i j : Nat) (a : TaskPc) (h : i < l.length) :
    (l.set i a)[j]? = if i = j then some a else l[j]? := by
  by_cases hij : i = j
  · subst hij
    rw [if_pos rfl, List.getElem?_set_self h]
  · rw [if_neg hij, List.getElem?_set_ne hij]

/-- Invariant of the login-lock model when every login attempt succeeds:
at most one login is ever issued, the authenticated flag records whether
it happened, tasks inside the critical section hold the lock, a task
about to log in sees an unauthenticated session, and any task that
reached the lock release (or finished) implies the login happened. -/
def SimGood (n : Nat) (st : SimState) : Prop :=
  st.pcs.length = n ∧
  st.logins ≤ 1 ∧
  (st.auth = true ↔ st.logins = 1) ∧
  (∀ (i : Nat) (pc : TaskPc), st.pcs[i]? = some pc →
    (pc = TaskPc.locked ∨ pc = TaskPc.loggingIn ∨ pc = TaskPc.releasing) →
    st.lock = some i) ∧
  (∀ (i : Nat), st.pcs[i]? = some TaskPc.loggingIn → st.auth = false) ∧
  (∀ (i : Nat), st.pcs[i]? = some TaskPc.releasing ∨ st.pcs[i]? = some TaskPc.done →
    st.logins = 1)

/-- One cooperative step preserves the invariant. -/
theorem simGood_step (outcome : Nat → Bool) (hout : ∀ k, outcome k = true)
    (n : Nat) (st st' : SimState) (i : Nat)
    (hstep : taskStep outcome st i = some st') (h : SimGood n st) : SimGood n st' := by
  obtain ⟨hlen, hle, hiff, hlock, hlogA, hfin⟩ := h
  unfold taskStep at hstep
  cases hpc : st.pcs[i]? with
  | none => rw [hpc] at hstep; cases hstep
  | some pc =>
    rw [hpc] at hstep
    have hilt : i < st.pcs.length := pcs_lt_of_getElem hpc
    cases pc with
    | start =>
      dsimp only at hstep
      by_cases hauth : st.auth = true
      · rw [if_pos hauth] at hstep
        obtain rfl := Option.some.inj hstep
        refine ⟨by simpa using hlen, hle, hiff, ?_, ?_, ?_⟩
        · intro j pc' hj hsec
          rw [set_getElem? _ _ _ _ hilt] at hj
          by_cases hij : i = j
          · rw [if_pos hij] at hj
            obtain rfl := Option.some.inj hj
            rcases hsec with h | h | h <;> cases h
          · rw [if_neg hij] at hj
            exact hlock j pc' hj hsec
        · intro j hj
          rw [set_getElem? _ _ _ _ hilt] at hj
          by_cases hij : i = j
          · rw [if_pos hij] at hj; cases Option.some.inj hj
          · rw [if_neg hij] at hj
            exact hlogA j hj
        · intro j hj
          exact hiff.mp hauth
      · rw [if_neg hauth] at hstep
        obtain rfl := Option.some.inj hstep
        refine ⟨by simpa using hlen, hle, hiff, ?_, ?_, ?_⟩
        · intro j pc' hj hsec
          rw [set_getElem? _ _ _ _ hilt] at hj
          by_cases hij : i = j
          · rw [if_pos hij] at hj
            obtain rfl := Option.some.inj hj
            rcases hsec with h | h | h <;> cases h
          · rw [if_neg hij] at hj
            exact hlock j pc' hj hsec
        · intro j hj
          rw [set_getElem? _ _ _ _ hilt] at hj
          by_cases hij : i = j
          · rw [if_pos hij] at hj; cases Option.some.inj hj
          · rw [if_neg hij] at hj
            exact hlogA j hj
        · intro j hj
          rw [set_getElem? _ _ _ _ hilt] at hj
          by_cases hij : i = j
          · rw [if_pos hij] at hj
            rcases hj with h | h <;> cases Option.some.inj h
          · rw [if_neg hij] at hj
            exact hfin j hj
    | acquiring =>
      dsimp only at hstep
      cases hlk : st.lock with
      | none =>
        rw [hlk] at hstep
        dsimp only at hstep
        obtain rfl := Option.some.inj hstep
        refine ⟨by simpa using hlen, hle, hiff, ?_, ?_, ?_⟩
        · intro j pc' hj hsec
          rw [set_getElem? _ _ _ _ hilt] at hj
          by_cases hij : i = j
          · rw [hij]
          · rw [if_neg hij] at hj
            have hcontra := hlock j pc' hj hsec
            rw [hlk] at hcontra
            cases hcontra
        · intro j hj
          rw [set_getElem? _ _ _ _ hilt] at hj
          by_cases hij : i = j
          · rw [if_pos hij] at hj; cases Option.some.inj hj
          · rw [if_neg hij] at hj
            exact hlogA j hj
        · intro j hj
          rw [set_getElem? _ _ _ _ hilt] at hj
          by_cases hij : i = j
          · rw [if_pos hij] at hj
            rcases hj with h | h <;> cases Option.some.inj h
          · rw [if_neg hij] at hj
            exact hfin j hj
      | some k => rw [hlk] at hstep; dsimp only at hstep; cases hstep
    | locked =>
      dsimp only at hstep
      have hlki : st.lock = some i := hlock i TaskPc.locked hpc (Or.inl rfl)
      by_cases hauth : st.auth = true
      · rw [if_pos hauth] at hstep
        obtain rfl := Option.some.inj hstep
        refine ⟨by simpa using hlen, hle, hiff, ?_, ?_, ?_⟩
        · intro j pc' hj hsec
          rw [set_getElem? _ _ _ _ hilt] at hj
          by_cases hij : i = j
          · rw [← hij]; exact hlki
          · rw [if_neg hij] at hj
            exact hlock j pc' hj hsec
        · intro j hj
          rw [set_getElem? _ _ _ _ hilt] at hj
          by_cases hij : i = j
          · rw [if_pos hij] at hj; cases Option.some.inj hj
          · rw [if_neg hij] at hj
            exact hlogA j hj
        · intro j hj
          exact hiff.mp hauth
      · rw [if_neg hauth] at hstep
        have hauthf : st.auth = false := by simpa using hauth
        obtain rfl := Option.some.inj hstep
        refine ⟨by simpa using hlen, hle, hiff, ?_, ?_, ?_⟩
        · intro j pc' hj hsec
          rw [set_getElem? _ _ _ _ hilt] at hj
          by_cases hij : i = j
          · rw [← hij]; exact hlki
          · rw [if_neg hij] at hj
            exact hlock j pc' hj hsec
        · intro j hj
          exact hauthf
        · intro j hj
          rw [set_getElem? _ _ _ _ hilt] at hj
          by_cases hij : i = j
          · rw [if_pos hij] at hj
            rcases hj with h | h <;> cases Option.some.inj h
          · rw [if_neg hij] at hj
            exact hfin j hj
    | loggingIn =>
      have hlki : st.lock = some i := hlock i TaskPc.loggingIn hpc (Or.inr (Or.inl rfl))
      have hauthf : st.auth = false := hlogA i hpc
      have hlog0 : st.logins = 0 := by
        by_cases h1 : st.logins = 1
        · exact absurd (hiff.mpr h1) (by simp [hauthf])
        · omega
      dsimp only at hstep
      obtain rfl := Option.some.inj hstep
      refine ⟨by simpa using hlen, by simp [hlog0], ?_, ?_, ?_, ?_⟩
      · simp [hout, hlog0]
      · intro j pc' hj hsec
        rw [set_getElem? _ _ _ _ hilt] at hj
        by_cases hij : i = j
        · rw [← hij]; exact hlki
        · rw [if_neg hij] at hj
          exact hlock j pc' hj hsec
      · intro j hj
        rw [set_getElem? _ _ _ _ hilt] at hj
        by_cases hij : i = j
        · rw [if_pos hij] at hj; cases Option.some.inj hj
        · rw [if_neg hij] at hj
          have hcontra := hlock j _ hj (Or.inr (Or.inl rfl))
          rw [hlki] at hcontra
          exact absurd (Option.some.inj hcontra) hij
      · intro j hj
        simp [hlog0]
    | releasing =>
      have hlki : st.lock = some i := hlock i TaskPc.releasing hpc (Or.inr (Or.inr rfl))
      dsimp only at hstep
      obtain rfl := Option.some.inj hstep
      refine ⟨by simpa using hlen, hle, hiff, ?_, ?_, ?_⟩
      · intro j pc' hj hsec
        rw [set_getElem? _ _ _ _ hilt] at hj
        by_cases hij : i = j
        · rw [if_pos hij] at hj
          obtain rfl := Option.some.inj hj
          rcases hsec with h | h | h <;> cases h
        · rw [if_neg hij] at hj
          have hcontra := hlock j pc' hj hsec
          rw [hlki] at hcontra
          exact absurd (Option.some.inj hcontra) hij
      · intro j hj
        rw [set_getElem? _ _ _ _ hilt] at hj
        by_cases hij : i = j
        · rw [if_pos hij] at hj; cases Option.some.inj hj
        · rw [if_neg hij] at hj
          exact hlogA j hj
      · intro j hj
        exact hfin i (Or.inl hpc)
    | done => dsimp only at hstep; cases hstep

/-- The invariant holds in the unauthenticated initial state. -/
theorem simGood_init (n : Nat) : SimGood n (simInit n false) := by
  have hrep : ∀ (i : Nat) (pc : TaskPc),
      (List.replicate n TaskPc.start)[i]? = some pc → pc = TaskPc.start := by
    intro i pc h
    rw [List.getElem?_replicate] at h
    split at h
    · exact (Option.some.inj h).symm
    · cases h
  refine ⟨by simp [simInit], by simp [simInit], by simp [simInit], ?_, ?_, ?_⟩
  · intro i pc hpc hsec
    have hstart := hrep i pc hpc
    subst hstart
    rcases hsec with h | h | h <;> cases h
  · intro i hpc
    cases hrep i _ hpc
  · intro i hpc
    rcases hpc with h | h <;> cases hrep i _ h

/-- Every reachable state of the all-success model satisfies the
invariant. -/
theorem simGood_reachable (outcome : Nat → Bool) (hout : ∀ k, outcome k = true)
    (n : Nat) (st : SimState)
    (h : SimReachable outcome (simInit n false) st) : SimGood n st := by
  induction h with
  | refl => exact simGood_init n
  | step st1 st2 i hr hstep ih => exact simGood_step outcome hout n st1 st2 i hstep ih

/-- Invariant for an initially authenticated session: no login network
call is ever made. -/
def SimAuthGood (st : SimState) : Prop :=
  st.auth = true ∧ st.logins = 0 ∧ ∀ (i : Nat), st.pcs[i]? ≠ some TaskPc.loggingIn

/-- One cooperative step preserves the authenticated-session invariant. -/
theorem simAuthGood_step (outcome : Nat → Bool) (st st' : SimState) (i : Nat)
    (hstep : taskStep outcome st i = some st') (h : SimAuthGood st) : SimAuthGood st' := by
  obtain ⟨hauth, hlog, hnolog⟩ := h
  unfold taskStep at hstep
  cases hpc : st.pcs[i]? with
  | none => rw [hpc] at hstep; cases hstep
  | some pc =>
    rw [hpc] at hstep
    have hilt : i < st.pcs.length := pcs_lt_of_getElem hpc
    cases pc with
    | start =>
      dsimp only at hstep
      rw [if_pos hauth] at hstep
      obtain rfl := Option.some.inj hstep
      refine ⟨hauth, hlog, ?_⟩
      intro j hj
      rw [set_getElem? _ _ _ _ hilt] at hj
      by_cases hij : i = j
      · rw [if_pos hij] at hj; cases Option.some.inj hj
      · rw [if_neg hij] at hj; exact hnolog j hj
    | acquiring =>
      dsimp only at hstep
      cases hlk : st.lock with
      | none =>
        rw [hlk] at hstep
        dsimp only at hstep
        obtain rfl := Option.some.inj hstep
        refine ⟨hauth, hlog, ?_⟩
        intro j hj
        rw [set_getElem? _ _ _ _ hilt] at hj
        by_cases hij : i = j
        · rw [if_pos hij] at hj; cases Option.some.inj hj
        · rw [if_neg hij] at hj; exact hnolog j hj
      | some k => rw [hlk] at hstep; dsimp only at hstep; cases hstep
    | locked =>
      dsimp only at hstep
      rw [if_pos hauth] at hstep
      obtain rfl := Option.some.inj hstep
      refine ⟨hauth, hlog, ?_⟩
      intro j hj
      rw [set_getElem? _ _ _ _ hilt] at hj
      by_cases hij : i = j
      · rw [if_pos hij] at hj; cases Option.some.inj hj
      · rw [if_neg hij] at hj; exact hnolog j hj
    | loggingIn => exact absurd hpc (hnolog i)
    | releasing =>
      dsimp only at hstep
      obtain rfl := Option.some.inj hstep
      refine ⟨hauth, hlog, ?_⟩
      intro j hj
      rw [set_getElem? _ _ _ _ hilt] at hj
      by_cases hij : i = j
      · rw [if_pos hij] at hj; cases Option.some.inj hj
      · rw [if_neg hij] at hj; exact hnolog j hj
    | done => dsimp only at hstep; cases hstep

/-- Every state reachable from an authenticated session satisfies the
no-login invariant. -/
theorem simAuthGood_reachable (outcome : Nat → Bool) (n : Nat) (st : SimState)
    (h : SimReachable outcome (simInit n true) st) : SimAuthGood st := by
  induction h with
  | refl =>
    refine ⟨rfl, rfl, ?_⟩
    intro i hj
    have hj2 : (List.replicate n TaskPc.start)[i]? = some TaskPc.loggingIn := hj
    rw [List.getElem?_replicate] at hj2
    split at hj2
    · cases Option.some.inj hj2
    · cases hj2
  | step st1 st2 i hr hstep ih => exact simAuthGood_step outcome st1 st2 i hstep ih

/-- C9 amended: provided every login attempt succeeds, any completed
interleaving of concurrent ensure-logged-in callers on an
unauthenticated session issues exactly one login network call (later
callers observe the first caller's outcome instead of logging in again),
and a caller on an already-authenticated session performs no login
network call at all. -/
theorem single_login_under_concurrency :
    (∀ (outcome : Nat → Bool), (∀ k, outcome k = true) → ∀ (n : Nat) (st : SimState),
      SimReachable outcome (simInit n false) st → st.allDone = true → 1 ≤ n →
      st.logins = 1) ∧
    (∀ (outcome : Nat → Bool) (n : Nat) (st : SimState),
      SimReachable outcome (simInit n true) st → st.logins = 0) := by
  constructor
  · intro outcome hout n st hreach hdone hn
    obtain ⟨hlen, hle, hiff, hlock, hlogA, hfin⟩ := simGood_reachable outcome hout n st hreach
    have h0 : 0 < st.pcs.length := by omega
    obtain ⟨pc0, hpc0⟩ : ∃ pc, st.pcs[0]? = some pc := ⟨_, List.getElem?_eq_getElem h0⟩
    have hmem : pc0 ∈ st.pcs := List.getElem?_mem hpc0
    have hall := List.all_eq_true.mp hdone _ hmem
    have hdone0 : pc0 = TaskPc.done := by simpa using hall
    exact hfin 0 (Or.inr (hdone0 ▸ hpc0))
  · intro outcome n st hreach
    exact (simAuthGood_reachable outcome n st hreach).2.1

/-- Witness for `single_login_under_concurrency`: one caller logging in
successfully performs exactly one login call. -/
theorem single_login_under_concurrency_witness :
    (⟨true, none, 1, [TaskPc.done]⟩ : SimState).logins = 1 := by
  have h0 : SimReachable (fun _ => true) (simInit 1 false) (simInit 1 false) :=
    SimReachable.refl
  have h1 : SimReachable (fun _ => true) (simInit 1 false)
      ⟨false, none, 0, [TaskPc.acquiring]⟩ := SimReachable.step _ _ 0 h0 rfl
  have h2 : SimReachable (fun _ => true) (simInit 1 false)
      ⟨false, some 0, 0, [TaskPc.locked]⟩ := SimReachable.step _ _ 0 h1 rfl
  have h3 : SimReachable (fun _ => true) (simInit 1 false)
      ⟨false, some 0, 0, [TaskPc.loggingIn]⟩ := SimReachable.step _ _ 0 h2 rfl
  have h4 : SimReachable (fun _ => true) (simInit 1 false)
      ⟨true, some 0, 1, [TaskPc.releasing]⟩ := SimReachable.step _ _ 0 h3 rfl
  have h5 : SimReachable (fun _ => true) (simInit 1 false)
      ⟨true, none, 1, [TaskPc.done]⟩ := SimReachable.step _ _ 0 h4 rfl
  exact single_login_under_concurrency.1 (fun _ => true) (fun _ => rfl) 1
    ⟨true, none, 1, [TaskPc.done]⟩ h5 rfl (by omega)

/-- Login outcomes where the first network login fails and later ones
succeed. -/
def failFirstLogin (k : Nat) : Bool := decide (0 < k)

/-- C9 counterexample: two concurrent ensure-logged-in callers on an
unauthenticated session; the first caller's login raises, the login
lock is released, and the second caller (which was already waiting on
the lock) performs a second login network call — a completed schedule
with two login calls, refuting "exactly one login network call is
issued". -/
theorem concurrent_login_failure_two_calls :
    SimReachable failFirstLogin (simInit 2 false)
      ⟨true, none, 2, [TaskPc.done, TaskPc.done]⟩ ∧
    SimState.allDone ⟨true, none, 2, [TaskPc.done, TaskPc.done]⟩ = true ∧
    (2 : Nat) ≠ 1 := by
  refine ⟨?_, rfl, by omega⟩
  have h0 : SimReachable failFirstLogin (simInit 2 false) (simInit 2 false) :=
    SimReachable.refl
  have h1 : SimReachable failFirstLogin (simInit 2 false)
      ⟨false, none, 0, [TaskPc.acquiring, TaskPc.start]⟩ := SimReachable.step _ _ 0 h0 rfl
  have h2 : SimReachable failFirstLogin (simInit 2 false)
      ⟨false, some 0, 0, [TaskPc.locked, TaskPc.start]⟩ := SimReachable.step _ _ 0 h1 rfl
  have h3 : SimReachable failFirstLogin (simInit 2 false)
      ⟨false, some 0, 0, [TaskPc.locked, TaskPc.acquiring]⟩ := SimReachable.step _ _ 1 h2 rfl
  have h4 : SimReachable failFirstLogin (simInit 2 false)
      ⟨false, some 0, 0, [TaskPc.loggingIn, TaskPc.acquiring]⟩ := SimReachable.step _ _ 0 h3 rfl
  have h5 : SimReachable failFirstLogin (simInit 2 false)
      ⟨false, some 0, 1, [TaskPc.releasing, TaskPc.acquiring]⟩ := SimReachable.step _ _ 0 h4 rfl
  have h6 : SimReachable failFirstLogin (simInit 2 false)
      ⟨false, none, 1, [TaskPc.done, TaskPc.acquiring]⟩ := SimReachable.step _ _ 0 h5 rfl
  have h7 : SimReachable failFirstLogin (simInit 2 false)
      ⟨false, some 1, 1, [TaskPc.done, TaskPc.locked]⟩ := SimReachable.step _ _ 1 h6 rfl
  have h8 : SimReachable failFirstLogin (simInit 2 false)
      ⟨false, some 1, 1, [TaskPc.done, TaskPc.loggingIn]⟩ := SimReachable.step _ _ 1 h7 rfl
  have h9 : SimReachable failFirstLogin (simInit 2 false)
      ⟨true, some 1, 2, [TaskPc.done, TaskPc.releasing]⟩ := SimReachable.step _ _ 1 h8 rfl
  exact SimReachable.step _ _ 1 h9 rfl

end ParkingPermit